import Mathlib

/-!
# webot: the dispatch engine of `lib/webot.js`

A shallow embedding of `Webot.prototype.reply`, `_reply` (with its inner
functions `end` and `tick`), `data`, `wait`, `_last_waited`, `rewait`, `set`,
`get` and `code2reply`, followed by theorems about the order in which rules are
tested and executed, the waiter bookkeeping, the values handed to the caller's
callback, the store, registration and lookup, and trimming.

The modules `./rule`, `./info` and `./utils` are not part of the source at hand.
`Rule.prototype.test`, `Rule.prototype.exec` and `Rule.convert` are therefore
parameters of the development (`RuleModule`, and the conversion given to `set`);
`Info.prototype.wait` and `utils.defaults` are modelled from the specification.  Debug logging (`log`, `warn`, `error`) has no effect
on the state and is left out.

User ids are strings.  The objects used as tables (the data cache, a bag,
`codeReplies`) are plain objects: a bag is held as its own properties, the bag
that the user id `__proto__` designates being `Object.prototype` itself, and
`inherited` gives the built-in members a plain object inherits.  `code2reply`
and `Webot.dataGet` read through the prototype chain; the getter branch of
`Webot.data` reads own properties, which is what the code reads wherever nothing
is inherited under the key.  A handler completes at most once, and what it does
to the envelope and the robot it does before completing.
-/

namespace Robot

/-! ## JavaScript values -/

/-- A JavaScript value that is not a rule: the primitives, and `obj` for any
other object or function, identified by `id`, whose conversion `String(v)`
yields `repr`.  Numbers are the integers. -/
inductive Atom where
  | undefined
  | null
  | bool (b : Bool)
  | num (n : Int)
  | str (s : String)
  | obj (id : Nat) (repr : String)
  deriving DecidableEq, Repr

/-- Truthiness of a value, as tested by `if (v)`, `!v` and `v || w`. -/
def Atom.truthy : Atom → Bool
  | .undefined => false
  | .null => false
  | .bool b => b
  | .num n => n != 0
  | .str s => s != ""
  | .obj _ _ => true

/-- The expression `a || b`. -/
def Atom.or (a b : Atom) : Atom := if a.truthy then a else b

/-- The conversion `String(v)`.  A number is printed with its decimal digits,
as JavaScript prints an integer of absolute value below 10^21; the exponent form
used from there on is not modelled. -/
def Atom.toStr : Atom → String
  | .undefined => "undefined"
  | .null => "null"
  | .bool true => "true"
  | .bool false => "false"
  | .num n => toString n
  | .str s => s
  | .obj _ r => r

/-- The built-in members that a plain object inherits from `Object.prototype`,
by name: `__proto__` yields the prototype object, every other name a native
function. -/
def inherited : String → Option Atom
  | "__proto__" => some (.obj 9000 "[object Object]")
  | "constructor" => some (.obj 9001 "function Object() \x7b [native code] \x7d")
  | "toString" => some (.obj 9002 "function toString() \x7b [native code] \x7d")
  | "toLocaleString" => some (.obj 9003 "function toLocaleString() \x7b [native code] \x7d")
  | "valueOf" => some (.obj 9004 "function valueOf() \x7b [native code] \x7d")
  | "hasOwnProperty" => some (.obj 9005 "function hasOwnProperty() \x7b [native code] \x7d")
  | "isPrototypeOf" => some (.obj 9006 "function isPrototypeOf() \x7b [native code] \x7d")
  | "propertyIsEnumerable" =>
    some (.obj 9007 "function propertyIsEnumerable() \x7b [native code] \x7d")
  | "__defineGetter__" => some (.obj 9008 "function __defineGetter__() \x7b [native code] \x7d")
  | "__defineSetter__" => some (.obj 9009 "function __defineSetter__() \x7b [native code] \x7d")
  | "__lookupGetter__" => some (.obj 9010 "function __lookupGetter__() \x7b [native code] \x7d")
  | "__lookupSetter__" => some (.obj 9011 "function __lookupSetter__() \x7b [native code] \x7d")
  | _ => none

/-- A normalized rule: the fields of a `Rule` object that `webot.js` reads.
Patterns, handlers and reply descriptors are values whose meaning is given by
the rule module. -/
structure Rule where
  name : Atom
  pattern : Atom
  handler : Atom
  replies : Atom
  deriving DecidableEq, Repr

/-- What `Rule.convert` returns: one rule, or a non-empty array of rules. -/
inductive Rules where
  | one (r : Rule)
  | many (first : Rule) (more : List Rule)
  deriving DecidableEq, Repr

/-- The elements `[].concat(x)` contributes: an array is spliced, anything else
is a single element. -/
def Rules.toList : Rules → List Rule
  | .one r => [r]
  | .many first more => first :: more

/-- A value that can sit in a user's data bag: a plain value, or the rule(s)
produced by `Rule.convert`. -/
inductive Val where
  | atom (a : Atom)
  | rules (c : Rules)
  deriving DecidableEq, Repr

/-- Truthiness: rule objects and arrays are always truthy. -/
def Val.truthy : Val → Bool
  | .atom a => a.truthy
  | .rules _ => true

/-- The expression `a || b` on stored values. -/
def Val.or (a b : Val) : Val := if a.truthy then a else b

/-! ## The envelope, the store and the robot -/

/-- The envelope `info` of one dispatch.  `text` is absent or a string. -/
structure Info where
  user : String
  text : Option String
  reply : Atom
  ended : Atom
  ruleIndex : Option Nat
  currentRule : Option Rule
  rewaitCount : Val
  deriving DecidableEq, Repr

/-- One user's data bag: the own properties of the object, by key. -/
abbrev Bag := String → Option Val

/-- The fresh object `{}`. -/
def emptyBag : Bag := fun _ => none

/-- The configuration object; `keepBlank` is read through its truthiness. -/
structure Config where
  keepBlank : Atom
  deriving DecidableEq, Repr

/-- `Webot.defaultConfig`. -/
def defaultConfig : Config := { keepBlank := .bool true }

/-- The state of a `Webot` instance.  `_data_cache` maps a user id to that
user's bag, when one has been created. -/
structure Webot where
  config : Config
  routes : List Rule
  _data_cache : String → Option Bag

/-- The constructor `new Webot()` with the default configuration. -/
def Webot.new : Webot :=
  { config := defaultConfig, routes := [], _data_cache := fun _ => none }

/-- What a handler and a pattern function can reach: the envelope and, through
`info.webot`, the robot. -/
structure World where
  info : Info
  bot : Webot

/-- The arguments `(err, result)` a handler passes to its completion. -/
structure Completion where
  err : Atom
  result : Atom
  deriving DecidableEq, Repr

/-- The rule module `./rule`, as far as `webot.js` uses it.  `test` observes the
world; `exec` runs the handler, which may change the envelope and the robot, and
reports the completion it invokes, `none` standing for a handler that never
calls back; `convert` is `Rule.convert(cfg, parent)`. -/
structure RuleModule where
  test : Rule → World → Bool
  exec : Rule → World → World × Option Completion
  convert : Val → Option Rule → Rules

/-- What `data` returns: one value, or the whole bag. -/
inductive Ret where
  | value (v : Val)
  | bag (b : Bag)

/-- The value read by `self.data(uid, key)`. -/
def Ret.val : Ret → Val
  | .value v => v
  | .bag _ => .atom (.obj 0 "[object Object]")

/-- The bag `this._data_cache[uid]`, or the fresh `{}` that takes its place. -/
def Webot.bagOf (self : Webot) (uid : String) : Bag :=
  (self._data_cache uid).getD emptyBag

/-- The assignment `this._data_cache[uid] = bag`. -/
def Webot.setBag (self : Webot) (uid : String) (bag : Bag) : Webot :=
  { self with _data_cache := fun u => if u = uid then some bag else self._data_cache u }

/-- The method `data(obj, key, value)` for a user id `obj` and a string `key`:
the bag is created when absent; `null` deletes the key, `undefined` reads it, any
other value is stored under it.  The bag is held as its own properties, and the
value read is the own property: `Webot.dataGet` is the read through the
prototype chain, and the two agree when nothing is inherited under the key. -/
def Webot.data (self : Webot) (obj key : String) (value : Val) : Webot × Ret :=
  let bag := self.bagOf obj
  match value with
  | .atom .null =>
    let bag1 : Bag := fun k => if k = key then none else bag k
    (self.setBag obj bag1, .bag bag1)
  | .atom .undefined =>
    (self.setBag obj bag, .value ((bag key).getD (.atom .undefined)))
  | v =>
    let bag1 : Bag := fun k => if k = key then some v else bag k
    (self.setBag obj bag1, .bag bag1)

/-- The value `data(obj, key)` returns, `obj[key]` read through the prototype
chain: an own property of the bag, else a property that has been set on
`Object.prototype`, which is the bag of the user id `__proto__`, else a built-in
member.  (For a user id that names a built-in function the bag is that function;
its own members and those of `Function.prototype` are not modelled.) -/
def Webot.dataGet (self : Webot) (obj key : String) : Val :=
  match self.bagOf obj key with
  | some v => v
  | none =>
    match self.bagOf "__proto__" key with
    | some v => v
    | none =>
      match inherited key with
      | some member => if obj = "__proto__" ∧ key = "__proto__" then .atom .null else .atom member
      | none => .atom .undefined

/-- The method `wait(uid, rule)`. -/
def Webot.wait (m : RuleModule) (self : Webot) (uid : String) (rule : Val) : Webot :=
  if rule.truthy then
    (self.data uid "waiter" (.rules (m.convert rule none))).1
  else self

/-- The method `_last_waited(uid, rule)`: a setter when `rule` is not
`undefined` (it then returns `this`, here `none`), a getter otherwise. -/
def Webot._last_waited (self : Webot) (uid : String) (rule : Val) : Webot × Option Val :=
  if rule ≠ .atom .undefined then
    ((self.data uid "last_waited" rule).1, none)
  else
    let r := self.data uid "last_waited" (.atom .undefined)
    (r.1, some r.2.val)

/-- Modelled from the spec: `Info.prototype.wait` of the absent module `./info`,
"a `wait(ruleDescriptor)` operation that arms the store's waiter for this
user". -/
def Info.wait (m : RuleModule) (w : World) (rule : Val) : World :=
  { w with bot := w.bot.wait m w.info.user rule }

/-! ## The reply coder -/

/-- The own properties of the table `Webot.prototype.codeReplies`. -/
def codeReplies : String → Option String
  | "204" => some "你的消息已经收到，若未即时回复，还望海涵"
  | "403" => some "鉴权失败,你的Token不正确"
  | "404" => some "听不懂你说的: "
  | "500" => some "服务器临时出了一点问题，您稍后再来好吗"
  | _ => none

/-- The method `code2reply(code)`: `this.codeReplies[String(code)] || String(code)`.
The table is a plain object: a code that is no own property of it is looked up
among the members it inherits. -/
def code2reply (code : Atom) : Atom :=
  let c := code.toStr
  match codeReplies c with
  | some t => Atom.or (.str t) (.str c)
  | none =>
    match inherited c with
    | some member => Atom.or member (.str c)
    | none => .str c

/-! ## Dispatch -/

/-- What a dispatch does, in order: a rule is tested, a rule is executed, the
caller's callback is invoked with `(err, info)`, or a `TypeError` escapes. -/
inductive Event where
  | tested (i : Nat) (rule : Rule) (ok : Bool)
  | executed (i : Nat) (rule : Rule)
  | called (err : Atom) (info : Info)
  | threw
  deriving DecidableEq, Repr

/-- The outcome of a dispatch: the world it leaves and what happened. -/
structure Run where
  world : World
  events : List Event

/-- Put events in front of a run. -/
def Run.after (es : List Event) (r : Run) : Run :=
  { r with events := es ++ r.events }

/-- The inner function `end(err)` of `_reply`. -/
def end_ (err : Atom) (w : World) : Run :=
  let reply := w.info.reply
  let err := if !reply.truthy then err.or (.num 500) else err
  let reply := if err.truthy then reply.or (code2reply err) else reply
  let info := { w.info with reply := reply }
  { world := { w with info := info }, events := [.called err info] }

/-- The completion callback that `tick(i)` passes to `rule.exec`, up to the call
of `end`: the world handed to `end`. -/
def settle (m : RuleModule) (rule : Rule) (result : Atom) (w : World) : World :=
  let w1 := if rule.replies.truthy then
      Info.wait m w (.rules (m.convert (.atom rule.replies) (some rule)))
    else w
  { w1 with info := { w1.info with reply := result } }

/-- The assignments `info.ruleIndex = i; info.currentRule = rule` of `tick(i)`. -/
def mark (w : World) (i : Nat) (rule : Rule) : World :=
  { w with info := { w.info with ruleIndex := some i, currentRule := some rule } }

/-- The inner function `tick(i)` of `_reply`; the first argument is the part of
`ruleList` from index `i` on, so that the head is `ruleList[i]`. -/
def tick (m : RuleModule) : List Rule → Nat → World → Run
  | [], _, w => end_ (.num 404) w
  | rule :: rest, i, w =>
    if !m.test rule w then
      (tick m rest (i + 1) w).after [.tested i rule false]
    else
      match m.exec rule (mark w i rule) with
      | (w2, none) =>
        { world := w2, events := [.tested i rule true, .executed i rule] }
      | (w2, some c) =>
        if c.result.truthy || w2.info.ended.truthy then
          (end_ c.err (settle m rule c.result w2)).after
            [.tested i rule true, .executed i rule]
        else
          (tick m rest (i + 1) w2).after [.tested i rule true, .executed i rule]

/-- The method `_reply(ruleList, info, cb)`. -/
def Webot._reply (m : RuleModule) (ruleList : List Rule) (w : World) : Run :=
  tick m ruleList 0 w

/-- White space as removed by `String.prototype.trim`. -/
def isJsSpace (c : Char) : Bool :=
  let n := c.toNat
  n = 9 || n = 10 || n = 11 || n = 12 || n = 13 || n = 32 || n = 160 || n = 5760 ||
  (8192 ≤ n && n ≤ 8202) || n = 8232 || n = 8233 || n = 8239 || n = 8287 ||
  n = 12288 || n = 65279

/-- The method `String.prototype.trim`. -/
def jsTrim (s : String) : String :=
  String.mk ((s.data.dropWhile isJsSpace).reverse.dropWhile isJsSpace).reverse

/-- The statement `if (!self.config.keepBlank && info.text) info.text = info.text.trim()`
of `reply`. -/
def Webot.trimText (self : Webot) (info : Info) : Info :=
  match info.text with
  | some t =>
    if !self.config.keepBlank.truthy && t != "" then { info with text := some (jsTrim t) }
    else info
  | none => info

/-- The body of `reply` before the call of `_reply`: trimming, the choice of the
rule list and the waiter bookkeeping.  The result is the rule list and the world
that `_reply` starts from.  A stored waiter that is not a rule value has no
`test` method: the first `tick` then fails with a `TypeError`, reported as
`Except.error` with the world reached.  (An empty array stored as waiter fails
earlier, in `getRuleName(waiter)`, before the waiter is deleted; the values of
the model do not tell it from other objects, and nothing proved here rests on
the world of the error.) -/
def Webot.replySetup (self : Webot) (info : Info) : Except World (List Rule × World) :=
  let info1 : Info := self.trimText info
  let r := self.data info1.user "waiter" (.atom .undefined)
  let waiter := r.2.val
  if waiter.truthy then
    let r1 := r.1.data info1.user "rewait_count" (.atom .undefined)
    let info2 : Info := { info1 with rewaitCount := r1.2.val.or (.atom (.num 0)) }
    let self2 := (r1.1.data info2.user "waiter" (.atom .null)).1
    let self3 := (self2._last_waited info2.user waiter).1
    match waiter with
    | .rules c => .ok (c.toList ++ self.routes, { info := info2, bot := self3 })
    | .atom _ => .error { info := info2, bot := self3 }
  else
    let self2 := (r.1.data info1.user "rewait_count" (.atom .null)).1
    .ok (self.routes, { info := info1, bot := self2 })

/-- The method `reply(data, cb)`, for an envelope `info = Info(data)`. -/
def Webot.reply (m : RuleModule) (self : Webot) (info : Info) : Run :=
  match self.replySetup info with
  | .ok (ruleList, w) => Webot._reply m ruleList w
  | .error w => { world := w, events := [.threw] }

/-! ## Retrying a wait -/

/-- The conversion `String(v)` of a stored value; a rule object is an ordinary
object and an array joins its elements with commas. -/
def Val.toStr : Val → String
  | .atom a => a.toStr
  | .rules c => String.intercalate "," (c.toList.map fun _ => "[object Object]")

/-- The number of times a natural number is halved until it is below 2^53: the
exponent of the unit in the last place of the double that holds it. -/
def shift : Nat → Nat → Nat
  | 0, _ => 0
  | fuel + 1, a => if a < 2 ^ 53 then 0 else shift fuel (a / 2) + 1

/-- The double nearest to an integer, ties going to the even significand of 53
bits; integers of absolute value below 2^53 are doubles themselves.  Magnitudes
from 2^1024 on, which overflow, are not modelled. -/
def toDouble (x : Int) : Int :=
  let a := x.natAbs
  if a < 2 ^ 53 then x
  else
    let e := shift a a
    let q := a / 2 ^ e
    let r := a % 2 ^ e
    let half := 2 ^ (e - 1)
    let q1 := if half < r || (r == half && q % 2 == 1) then q + 1 else q
    if x < 0 then -((q1 * 2 ^ e : Nat) : Int) else ((q1 * 2 ^ e : Nat) : Int)

/-- The expression `c + 1` of `rewait`, where `c` is `stored || 0`: a number is
incremented in double precision, `true` counts as 1, and any other truthy value
is converted to a string to which "1" is appended. -/
def nextCount (stored : Val) : Val :=
  if stored.truthy then
    match stored with
    | .atom (.num n) => .atom (.num (toDouble (n + 1)))
    | .atom (.bool _) => .atom (.num 2)
    | v => .atom (.str (v.toStr ++ "1"))
  else .atom (.num 1)

/-- The method `rewait(uid)`. -/
def Webot.rewait (m : RuleModule) (self : Webot) (uid : String) : Webot :=
  let r := self._last_waited uid (.atom .undefined)
  let rule := r.2.getD (.atom .undefined)
  if rule.truthy then
    let r1 := r.1.data uid "rewait_count" (.atom .undefined)
    let self2 := (r1.1.data uid "rewait_count" (nextCount r1.2.val)).1
    self2.wait m uid rule
  else r.1

/-! ## The null key -/

/-- The method `data(obj, key)` for a user id `obj` and the key `null`.  The
first statement creates the bag when it is absent; the branch `key === null`
then evaluates `delete this._data_cache[uid]`, and `uid` is declared nowhere in
the module, which is in strict mode: a `ReferenceError`.  The result is the
robot as the call leaves it and the outcome of the call. -/
def Webot.dataNull (self : Webot) (obj : String) : Webot × Except String Ret :=
  (self.setBag obj (self.bagOf obj), .error "ReferenceError: uid is not defined")

/-- The own properties of a rule object that `webot.js` reads. -/
def Rule.fields (r : Rule) : List (String × Val) :=
  [("name", .atom r.name), ("pattern", .atom r.pattern), ("handler", .atom r.handler),
    ("replies", .atom r.replies)]

/-! ## Registration and lookup -/

/-- An argument of `set`, sorted by what `typeof` says of it: a function, a
string, `null` and an object that is not a function (a descriptor, an array, a
rule) both being of type 'object', and anything else (`undefined`, a number, a
boolean). -/
inductive Arg where
  | func (f : Atom)
  | text (s : String)
  | null
  | object (o : Val)
  | other (a : Atom)
  deriving DecidableEq, Repr

/-- The value of an argument. -/
def Arg.val : Arg → Val
  | .func f => .atom f
  | .text s => .atom (.str s)
  | .null => .atom .null
  | .object o => o
  | .other a => .atom a

/-- The test `typeof arg === 'object'`. -/
def Arg.isObject : Arg → Bool
  | .null => true
  | .object _ => true
  | _ => false

/-- The object `set` hands to `Rule.convert`: a fresh object with the properties
`pattern` and `handler` and, when it is assigned, `replies`; the single argument
itself; or the object argument after the assignment of its `name`. -/
inductive Descriptor where
  | literal (pattern handler : Val) (replies : Option Val)
  | given (d : Val)
  | named (o : Val) (name : String)
  deriving DecidableEq, Repr

/-- The `switch` statement of `set`, on the arguments of the call: `none` when
the call returns at once, an error when the assignment `rule.name = arg1` is
made to `null`, else the descriptor. -/
def describe : List Arg → Option (Except String Descriptor)
  | [] => none
  | [arg1] =>
    match arg1 with
    | .func f => some (.ok (.literal (.atom .null) (.atom f) none))
    | d => some (.ok (.given d.val))
  | [arg1, arg2] =>
    match arg1 with
    | .text s =>
      match arg2 with
      | .null => some (.error "TypeError: Cannot set property name of null")
      | .object o => some (.ok (.named o s))
      | b => some (.ok (.literal (.atom (.str s)) b.val (some (.atom .undefined))))
    | a => some (.ok (.literal a.val arg2.val (some (.atom .undefined))))
  | arg1 :: arg2 :: arg3 :: _ => some (.ok (.literal arg1.val arg2.val (some arg3.val)))

/-- The method `set(arg1, arg2, arg3)`; `conv` is `Rule.convert` on the
descriptors that `set` builds. -/
def Webot.set (conv : Descriptor → Rules) (self : Webot) (args : List Arg) :
    Except String Webot :=
  match describe args with
  | none => .ok self
  | some (.error e) => .error e
  | some (.ok d) => .ok { self with routes := self.routes ++ (conv d).toList }

/-- The method `get(name)`.  The module neither declares nor imports `_`, and
it is in strict mode: for a truthy name the evaluation of `_.find` is a
`ReferenceError`. -/
def Webot.get (self : Webot) (name : Atom) : Except String (List Rule) :=
  if !name.truthy then .ok self.routes else .error "ReferenceError: _ is not defined"

/-! ## Configuration -/

/-- Modelled from the spec: `utils.defaults(config, Webot.defaultConfig)` of the
absent module `./utils`, for "a single recognized option, `keepBlank` (boolean,
default true)": an option that is not given takes its default. -/
def defaults (config dflt : Config) : Config :=
  { keepBlank := if config.keepBlank = .undefined then dflt.keepBlank else config.keepBlank }

/-- The constructor `Webot(config)`; `none` is a call without a configuration,
for which `config || {}` is the empty object. -/
def Webot.create (config : Option Config) : Webot :=
  { config := defaults (config.getD { keepBlank := .undefined }) defaultConfig,
    routes := [],
    _data_cache := fun _ => none }

/-! ## Sample rules and vocabulary for the statements -/

/-- The events of testing the rules of `pre`, from index `i` on, when none of
them matches. -/
def missed : List Rule → Nat → List Event
  | [], _ => []
  | r :: rs, i => .tested i r false :: missed rs (i + 1)

/-- The index of an execution event. -/
def Event.execIdx : Event → Option Nat
  | .executed i _ => some i
  | _ => none

/-- The indices of the rules executed, in the order of execution. -/
def execIdxs (es : List Event) : List Nat := es.filterMap Event.execIdx

/-- The number of callback invocations in a trace. -/
def calls (es : List Event) : Nat :=
  (es.filter fun e => match e with | .called _ _ => true | _ => false).length

/-- A sample rule module, used to run the engine on concrete inputs.  A pattern
that is absent or `null` always matches, a string pattern matches the equal
text, other patterns never match.  A string handler replies with that string; a
function handler is told apart by its `id`: 1 declines, 2 reports the error
`"boom"` with no result, 3 sets `info.ended` and reports nothing, 4 replies with
the number 42, 5 assigns `info.reply` and declines, 6 reports the error `[]`
after setting `info.ended`, 7 assigns `info.reply`, sets `info.ended` and reports
nothing, every other never calls back.  `convert` leaves rule
values alone and makes of any other value the pattern of a rule that inherits
the handler of its parent. -/
def sampleModule : RuleModule where
  test := fun r w =>
    match r.pattern with
    | .undefined => true
    | .null => true
    | .str s => decide (w.info.text = some s)
    | _ => false
  exec := fun r w =>
    match r.handler with
    | .str s => (w, some { err := .null, result := .str s })
    | .obj 1 _ => (w, some { err := .null, result := .undefined })
    | .obj 2 _ => (w, some { err := .str "boom", result := .undefined })
    | .obj 3 _ =>
      ({ w with info := { w.info with ended := .bool true } },
        some { err := .undefined, result := .undefined })
    | .obj 4 _ => (w, some { err := .null, result := .num 42 })
    | .obj 5 _ =>
      ({ w with info := { w.info with reply := .str "draft" } },
        some { err := .null, result := .undefined })
    | .obj 6 _ =>
      ({ w with info := { w.info with ended := .bool true } },
        some { err := .obj 9 "", result := .undefined })
    | .obj 7 _ =>
      ({ w with info := { w.info with reply := .str "draft", ended := .bool true } },
        some { err := .null, result := .undefined })
    | _ => (w, none)
  convert := fun v parent =>
    match v with
    | .rules c => c
    | .atom a =>
      .one { name := .undefined, pattern := a,
             handler := (parent.map Rule.handler).getD .undefined, replies := .undefined }

/-- A function value with the given `id`. -/
def fn (id : Nat) : Atom := .obj id "function"

/-- A rule with the given pattern and handler, and no name or replies. -/
def rule (pattern handler : Atom) : Rule :=
  { name := .undefined, pattern := pattern, handler := handler, replies := .undefined }

/-- The envelope of a text message: `Info` applied to a user id and a text. -/
def message (user text : String) : Info :=
  { user := user, text := some text, reply := .undefined, ended := .undefined,
    ruleIndex := none, currentRule := none, rewaitCount := .atom .undefined }

/-- The world of a fresh robot receiving a text message. -/
def fresh (user text : String) : World := { info := message user text, bot := Webot.new }

/-- Sample rules for the order of dispatch: the first rule
does not match, the second matches and declines, the third does not match, the
fourth matches. -/
def orderRules : List Rule :=
  [rule (.str "x") (.str "no"), rule .null (fn 1), rule (.str "y") (.str "no"),
    rule (.str "hi") (.str "hello")]

/-- The world `_reply` starts from when the user has the waiter `c`: the waiter
is deleted and archived, and the retry count is copied to the envelope. -/
def waiterWorld (self : Webot) (info : Info) (c : Rules) : World :=
  let info1 := self.trimText info
  let self1 := (self.data info1.user "waiter" (.atom .undefined)).1
  let r1 := self1.data info1.user "rewait_count" (.atom .undefined)
  { info := { info1 with rewaitCount := r1.2.val.or (.atom (.num 0)) },
    bot := (((r1.1.data info1.user "waiter" (.atom .null)).1)._last_waited info1.user
      (.rules c)).1 }

/-- The rule of Scenario B: pattern "book", reply "ok", follow-up "confirm". -/
def book : Rule :=
  { name := .undefined, pattern := .str "book", handler := .str "ok", replies := .str "confirm" }

/-- A fresh robot with the given routes. -/
def robot (routes : List Rule) : Webot := { Webot.new with routes := routes }

/-- A store in which the user `u2` has the waiter "confirm" and has been asked
again twice: the retry count is 2. -/
def armed : Webot :=
  (((robot [book]).data "u2" "waiter" (.rules (.one (rule (.str "confirm") (.str "ok"))))).1.data
    "u2" "rewait_count" (.atom (.num 2))).1

/-- The world reached when every rule of the list, scanned from index `i`, either
fails its test or is executed and declines; `none` when one of them terminates
the dispatch or never completes. -/
def passes (m : RuleModule) : List Rule → Nat → World → Option World
  | [], _, w => some w
  | r :: rest, i, w =>
    if !m.test r w then passes m rest (i + 1) w
    else
      match m.exec r (mark w i r) with
      | (_, none) => none
      | (w2, some c) =>
        if c.result.truthy || w2.info.ended.truthy then none else passes m rest (i + 1) w2

/-- The sample module with every handler that never calls back replaced by one
that declines. -/
def completing : RuleModule :=
  { sampleModule with
    exec := fun r w =>
      match (sampleModule.exec r w).2 with
      | some c => ((sampleModule.exec r w).1, some c)
      | none => (w, some { err := .null, result := .undefined }) }

/-- A module whose patterns all match and whose handlers behave as in the sample
module. -/
def matchAll : RuleModule := { sampleModule with test := fun _ _ => true }

/-- A store in which the waiter "confirm" of `u2` has been consumed: it is the
`last_waited` of that user, and there is no retry count. -/
def consumed : Webot :=
  ((robot [book]).data "u2" "last_waited"
    (.rules (.one (rule (.str "confirm") (.str "ok"))))).1

/-- A sample conversion of the descriptors of `set`: a fresh object becomes the
rule of its properties, a named descriptor a rule of that name with an opaque
pattern and handler, any other single argument a catch-all rule that replies
with the string form of the argument. -/
def sampleConv : Descriptor → Rules
  | .literal (.atom p) (.atom h) replies =>
    .one { name := .undefined, pattern := p, handler := h,
           replies := match replies with
             | some (.atom a) => a
             | _ => .undefined }
  | .named _ name =>
    .one { name := .str name, pattern := .obj 0 "pattern", handler := .obj 0 "handler",
           replies := .undefined }
  | .given d => .one (rule .null (.str d.toStr))
  | _ => .one (rule .null .undefined)

/-- The robot in which the bookkeeping of `reply` ends, whether or not the scan
can start. -/
def setupBot : Except World (List Rule × World) → Webot
  | .ok (_, w) => w.bot
  | .error w => w.bot

/-- The store `consumed` with a retry count of 2^53 for `u2`. -/
def saturated : Webot :=
  (consumed.data "u2" "rewait_count" (.atom (.num 9007199254740992))).1

/-! ## Unfolding the engine -/

@[simp] theorem after_events (es : List Event) (r : Run) :
    (r.after es).events = es ++ r.events := rfl

@[simp] theorem after_world (es : List Event) (r : Run) :
    (r.after es).world = r.world := rfl

theorem after_after (a b : List Event) (r : Run) :
    (r.after a).after b = r.after (b ++ a) := by
  simp [Run.after]

theorem after_nil (r : Run) : r.after [] = r := rfl

theorem tick_nil (m : RuleModule) (i : Nat) (w : World) :
    tick m [] i w = end_ (.num 404) w := rfl

theorem tick_miss (m : RuleModule) (r : Rule) (rest : List Rule) (i : Nat) (w : World)
    (h : m.test r w = false) :
    tick m (r :: rest) i w = (tick m rest (i + 1) w).after [.tested i r false] := by
  simp [tick, h]

theorem tick_stall (m : RuleModule) (r : Rule) (rest : List Rule) (i : Nat) (w : World)
    (h : m.test r w = true) (he : (m.exec r (mark w i r)).2 = none) :
    tick m (r :: rest) i w =
      { world := (m.exec r (mark w i r)).1, events := [.tested i r true, .executed i r] } := by
  rcases hx : m.exec r (mark w i r) with ⟨w2, oc⟩
  rw [hx] at he
  simp only at he
  subst he
  simp [tick, h, hx]

theorem tick_done (m : RuleModule) (r : Rule) (rest : List Rule) (i : Nat) (w : World)
    (c : Completion) (h : m.test r w = true) (he : (m.exec r (mark w i r)).2 = some c)
    (ht : (c.result.truthy || (m.exec r (mark w i r)).1.info.ended.truthy) = true) :
    tick m (r :: rest) i w =
      (end_ c.err (settle m r c.result (m.exec r (mark w i r)).1)).after
        [.tested i r true, .executed i r] := by
  rcases hx : m.exec r (mark w i r) with ⟨w2, oc⟩
  rw [hx] at he ht
  simp only at he ht
  subst he
  simp [tick, h, hx, ht]

theorem tick_decline (m : RuleModule) (r : Rule) (rest : List Rule) (i : Nat) (w : World)
    (c : Completion) (h : m.test r w = true) (he : (m.exec r (mark w i r)).2 = some c)
    (ht : (c.result.truthy || (m.exec r (mark w i r)).1.info.ended.truthy) = false) :
    tick m (r :: rest) i w =
      (tick m rest (i + 1) (m.exec r (mark w i r)).1).after
        [.tested i r true, .executed i r] := by
  rcases hx : m.exec r (mark w i r) with ⟨w2, oc⟩
  rw [hx] at he ht
  simp only at he ht
  subst he
  simp [tick, h, hx, ht]

theorem tick_skip (m : RuleModule) (pre rs : List Rule) (w : World) :
    ∀ i : Nat, (∀ p ∈ pre, m.test p w = false) →
      tick m (pre ++ rs) i w = (tick m rs (i + pre.length) w).after (missed pre i) := by
  induction pre with
  | nil => intro i _; simp [missed, after_nil]
  | cons p ps ih =>
    intro i h
    have hp : m.test p w = false := h p (List.mem_cons_self _ _)
    have hps : ∀ q ∈ ps, m.test q w = false := fun q hq => h q (List.mem_cons_of_mem _ hq)
    rw [List.cons_append, tick_miss m p _ i w hp, ih (i + 1) hps, after_after]
    simp [missed, Nat.add_assoc, Nat.add_comm 1]

theorem end_events (err : Atom) (w : World) :
    ∃ e info, (end_ err w).events = [.called e info] := ⟨_, _, rfl⟩

theorem tick_cons_cases (m : RuleModule) (r : Rule) (rest : List Rule) (i : Nat) (w : World) :
    (m.test r w = false ∧
      tick m (r :: rest) i w = (tick m rest (i + 1) w).after [.tested i r false]) ∨
    (m.test r w = true ∧ ∃ w2 : World,
      tick m (r :: rest) i w = { world := w2, events := [.tested i r true, .executed i r] }) ∨
    (m.test r w = true ∧ ∃ (e : Atom) (w3 : World),
      tick m (r :: rest) i w = (end_ e w3).after [.tested i r true, .executed i r]) ∨
    (m.test r w = true ∧ ∃ w2 : World,
      tick m (r :: rest) i w = (tick m rest (i + 1) w2).after [.tested i r true, .executed i r]) := by
  cases h : m.test r w with
  | false => exact Or.inl ⟨rfl, tick_miss m r rest i w h⟩
  | true =>
    right
    cases he : (m.exec r (mark w i r)).2 with
    | none => exact Or.inl ⟨rfl, _, tick_stall m r rest i w h he⟩
    | some c =>
      right
      cases ht : (c.result.truthy || (m.exec r (mark w i r)).1.info.ended.truthy) with
      | true => exact Or.inl ⟨rfl, _, _, tick_done m r rest i w c h he ht⟩
      | false => exact Or.inr ⟨rfl, _, tick_decline m r rest i w c h he ht⟩

theorem execIdxs_end (e : Atom) (w : World) : execIdxs (end_ e w).events = [] := rfl

theorem execIdxs_append (a b : List Event) : execIdxs (a ++ b) = execIdxs a ++ execIdxs b := by
  simp [execIdxs, List.filterMap_append]

theorem tick_execIdxs (m : RuleModule) (rules : List Rule) :
    ∀ (i : Nat) (w : World),
      (execIdxs (tick m rules i w).events).Pairwise (· < ·) ∧
      ∀ k ∈ execIdxs (tick m rules i w).events, i ≤ k := by
  induction rules with
  | nil =>
    intro i w
    rw [tick_nil, execIdxs_end]
    simp
  | cons r rest ih =>
    intro i w
    rcases tick_cons_cases m r rest i w with ⟨_, h⟩ | ⟨_, w2, h⟩ | ⟨_, e, w3, h⟩ | ⟨_, w2, h⟩
    · rw [h, after_events, execIdxs_append]
      obtain ⟨h1, h2⟩ := ih (i + 1) w
      refine ⟨by simpa [execIdxs, Event.execIdx] using h1, ?_⟩
      intro k hk
      have := h2 k (by simpa [execIdxs, Event.execIdx] using hk)
      omega
    · rw [h]
      simp [execIdxs, Event.execIdx]
    · rw [h, after_events, execIdxs_append, execIdxs_end]
      simp [execIdxs, Event.execIdx]
    · rw [h, after_events, execIdxs_append]
      obtain ⟨h1, h2⟩ := ih (i + 1) w2
      have hl : execIdxs [Event.tested i r true, Event.executed i r] = [i] := rfl
      rw [hl]
      refine ⟨?_, ?_⟩
      · simp only [List.singleton_append, List.pairwise_cons]
        exact ⟨fun k hk => by have := h2 k hk; omega, h1⟩
      · intro k hk
        simp only [List.singleton_append, List.mem_cons] at hk
        rcases hk with hk | hk
        · omega
        · have := h2 k hk; omega

theorem tick_executed_tested (m : RuleModule) (rules : List Rule) :
    ∀ (i : Nat) (w : World) (k : Nat) (q : Rule),
      Event.executed k q ∈ (tick m rules i w).events →
      Event.tested k q true ∈ (tick m rules i w).events := by
  induction rules with
  | nil =>
    intro i w k q hk
    rw [tick_nil] at hk
    simp [end_] at hk
  | cons r rest ih =>
    intro i w k q
    rcases tick_cons_cases m r rest i w with ⟨_, h⟩ | ⟨_, w2, h⟩ | ⟨_, e, w3, h⟩ | ⟨_, w2, h⟩
    · rw [h, after_events]
      intro hk
      simp only [List.singleton_append, List.mem_cons] at hk ⊢
      rcases hk with hk | hk
      · cases hk
      · exact Or.inr (ih _ _ _ _ hk)
    · rw [h]
      intro hk
      simp only [List.mem_cons, List.mem_singleton] at hk ⊢
      rcases hk with hk | hk | hk
      · cases hk
      · cases hk; exact Or.inl rfl
      · cases hk
    · rw [h, after_events]
      intro hk
      obtain ⟨e2, info2, he2⟩ := end_events e w3
      rw [he2] at hk ⊢
      simp only [List.cons_append, List.nil_append, List.mem_cons, List.mem_singleton] at hk ⊢
      rcases hk with hk | hk | hk | hk
      · cases hk
      · cases hk; exact Or.inl rfl
      · cases hk
      · cases hk
    · rw [h, after_events]
      intro hk
      simp only [List.cons_append, List.nil_append, List.mem_cons] at hk ⊢
      rcases hk with hk | hk | hk
      · cases hk
      · cases hk; exact Or.inl rfl
      · exact Or.inr (Or.inr (ih _ _ _ _ hk))

theorem tick_first (m : RuleModule) (pre : List Rule) (r : Rule) (rest : List Rule)
    (i : Nat) (w : World)
    (hpre : ∀ p ∈ pre, m.test p w = false) (hr : m.test r w = true) :
    ∃ tail, (tick m (pre ++ r :: rest) i w).events =
      missed pre i ++ .tested (i + pre.length) r true :: .executed (i + pre.length) r :: tail := by
  rw [tick_skip m pre _ w i hpre, after_events]
  rcases tick_cons_cases m r rest (i + pre.length) w with
    ⟨h0, _⟩ | ⟨_, w2, h⟩ | ⟨_, e, w3, h⟩ | ⟨_, w2, h⟩
  · rw [hr] at h0; cases h0
  · exact ⟨[], by rw [h]⟩
  · exact ⟨(end_ e w3).events, by rw [h]; rfl⟩
  · exact ⟨(tick m rest (i + pre.length + 1) w2).events, by rw [h]; rfl⟩

/-! ## The order of dispatch -/

/-- C1: scanning from any index `i` (the method `_reply` starts `tick` at 0),
the rules are executed in increasing index order and only after their test
returned true; the first rule executed is the lowest-index rule whose test is
true; and when that rule declines (falsy result, `info.ended` not set) the
dispatch does not terminate: it is the scan from the next index, so that the
next rule executed is the lowest-index later rule whose test is true. -/
theorem dispatch_scans_in_order (m : RuleModule) (pre : List Rule) (r : Rule)
    (rest : List Rule) (i : Nat) (w : World)
    (hpre : ∀ p ∈ pre, m.test p w = false) (hr : m.test r w = true) :
    (∃ tail, (tick m (pre ++ r :: rest) i w).events =
        missed pre i ++
          .tested (i + pre.length) r true :: .executed (i + pre.length) r :: tail) ∧
    (∀ c : Completion, (m.exec r (mark w (i + pre.length) r)).2 = some c →
        c.result.truthy = false →
        (m.exec r (mark w (i + pre.length) r)).1.info.ended.truthy = false →
        tick m (pre ++ r :: rest) i w =
            (tick m rest (i + pre.length + 1) (m.exec r (mark w (i + pre.length) r)).1).after
              (missed pre i ++
                [.tested (i + pre.length) r true, .executed (i + pre.length) r]) ∧
        ∀ (pre2 : List Rule) (r2 : Rule) (rest2 : List Rule), rest = pre2 ++ r2 :: rest2 →
          (∀ p ∈ pre2, m.test p (m.exec r (mark w (i + pre.length) r)).1 = false) →
          m.test r2 (m.exec r (mark w (i + pre.length) r)).1 = true →
          ∃ tail, (tick m (pre ++ r :: rest) i w).events =
            missed pre i ++
              [.tested (i + pre.length) r true, .executed (i + pre.length) r] ++
              missed pre2 (i + pre.length + 1) ++
              .tested (i + pre.length + 1 + pre2.length) r2 true ::
              .executed (i + pre.length + 1 + pre2.length) r2 :: tail) ∧
    (execIdxs (tick m (pre ++ r :: rest) i w).events).Pairwise (· < ·) ∧
    (∀ (k : Nat) (q : Rule), Event.executed k q ∈ (tick m (pre ++ r :: rest) i w).events →
        Event.tested k q true ∈ (tick m (pre ++ r :: rest) i w).events) := by
  refine ⟨tick_first m pre r rest i w hpre hr, ?_, (tick_execIdxs m _ i w).1,
    tick_executed_tested m _ i w⟩
  intro c he hres hend
  have ht : (c.result.truthy || (m.exec r (mark w (i + pre.length) r)).1.info.ended.truthy)
      = false := by rw [hres, hend]; rfl
  have hrun : tick m (pre ++ r :: rest) i w =
      (tick m rest (i + pre.length + 1) (m.exec r (mark w (i + pre.length) r)).1).after
        (missed pre i ++
          [.tested (i + pre.length) r true, .executed (i + pre.length) r]) := by
    rw [tick_skip m pre _ w i hpre, tick_decline m r rest _ w c hr he ht, after_after]
  refine ⟨hrun, ?_⟩
  intro pre2 r2 rest2 hrest hpre2 hr2
  obtain ⟨tail, ht2⟩ := tick_first m pre2 r2 rest2 (i + pre.length + 1) _ hpre2 hr2
  refine ⟨tail, ?_⟩
  rw [hrun, after_events, hrest, ht2]
  simp

theorem dispatch_scans_in_order_witness :
    (∀ p ∈ [rule (.str "x") (.str "no")], sampleModule.test p (fresh "u1" "hi") = false) ∧
    sampleModule.test (rule .null (fn 1)) (fresh "u1" "hi") = true ∧
    execIdxs (tick sampleModule orderRules 0 (fresh "u1" "hi")).events = [1, 3] ∧
    (execIdxs (tick sampleModule orderRules 0 (fresh "u1" "hi")).events).Pairwise (· < ·) :=
  ⟨by decide, by decide, by decide,
    (dispatch_scans_in_order sampleModule [rule (.str "x") (.str "no")] (rule .null (fn 1))
      [rule (.str "y") (.str "no"), rule (.str "hi") (.str "hello")] 0 (fresh "u1" "hi")
      (by decide) (by decide)).2.2.1⟩

/-- C2, the claim as stated fails: the first rule matches and declines, and the
second rule, past the lowest matching index, is then tested and executed. -/
theorem first_match_only_counterexample :
    sampleModule.test (rule .null (fn 1)) (fresh "u1" "hi") = true ∧
    Event.tested 1 (rule .null (.str "ok")) true ∈
      (Webot._reply sampleModule [rule .null (fn 1), rule .null (.str "ok")]
        (fresh "u1" "hi")).events ∧
    Event.executed 1 (rule .null (.str "ok")) ∈
      (Webot._reply sampleModule [rule .null (fn 1), rule .null (.str "ok")]
        (fresh "u1" "hi")).events := by
  decide

/-- C2, amended: the first rule executed is the lowest-index rule whose test
returns true, and when the completion of that rule is terminal (truthy result or
`info.ended` set) nothing follows its execution but the callback: no rule past
that index is tested or executed. -/
theorem first_match_executes (m : RuleModule) (pre : List Rule) (r : Rule)
    (rest : List Rule) (w : World)
    (hpre : ∀ p ∈ pre, m.test p w = false) (hr : m.test r w = true) :
    (∃ tail, (Webot._reply m (pre ++ r :: rest) w).events =
        missed pre 0 ++ .tested pre.length r true :: .executed pre.length r :: tail) ∧
    (∀ c : Completion, (m.exec r (mark w pre.length r)).2 = some c →
        (c.result.truthy || (m.exec r (mark w pre.length r)).1.info.ended.truthy) = true →
        ∃ (e : Atom) (info : Info), (Webot._reply m (pre ++ r :: rest) w).events =
          missed pre 0 ++
            [.tested pre.length r true, .executed pre.length r, .called e info]) := by
  constructor
  · simpa [Webot._reply] using tick_first m pre r rest 0 w hpre hr
  · intro c he ht
    have he0 : (m.exec r (mark w (0 + pre.length) r)).2 = some c := by simpa using he
    have ht0 : (c.result.truthy ||
        (m.exec r (mark w (0 + pre.length) r)).1.info.ended.truthy) = true := by simpa using ht
    obtain ⟨e, info, hev⟩ :=
      end_events c.err (settle m r c.result (m.exec r (mark w (0 + pre.length) r)).1)
    refine ⟨e, info, ?_⟩
    rw [Webot._reply, tick_skip m pre _ w 0 hpre, tick_done m r rest _ w c hr he0 ht0,
      after_after, after_events, hev]
    simp

theorem first_match_executes_witness :
    (∀ p ∈ [rule (.str "x") (.str "no")], sampleModule.test p (fresh "u1" "hi") = false) ∧
    sampleModule.test (rule (.str "hi") (.str "hello")) (fresh "u1" "hi") = true ∧
    ∃ tail, (Webot._reply sampleModule
        ([rule (.str "x") (.str "no")] ++
          rule (.str "hi") (.str "hello") :: [rule .null (.str "late")])
        (fresh "u1" "hi")).events =
      missed [rule (.str "x") (.str "no")] 0 ++
        .tested 1 (rule (.str "hi") (.str "hello")) true ::
        .executed 1 (rule (.str "hi") (.str "hello")) :: tail :=
  ⟨by decide, by decide,
    (first_match_executes sampleModule [rule (.str "x") (.str "no")]
      (rule (.str "hi") (.str "hello")) [rule .null (.str "late")] (fresh "u1" "hi")
      (by decide) (by decide)).1⟩

/-! ## The store -/

theorem trimText_user (self : Webot) (info : Info) : (self.trimText info).user = info.user := by
  unfold Webot.trimText
  split
  · split <;> rfl
  · rfl

theorem data_routes (self : Webot) (uid key : String) (v : Val) :
    (self.data uid key v).1.routes = self.routes := by
  unfold Webot.data
  split <;> rfl

theorem data_read_bagOf (self : Webot) (uid key u : String) :
    (self.data uid key (.atom .undefined)).1.bagOf u = self.bagOf u := by
  simp only [Webot.data, Webot.bagOf, Webot.setBag]
  by_cases h : u = uid
  · subst h; simp
  · simp [h]

theorem data_read_val (self : Webot) (uid key : String) :
    (self.data uid key (.atom .undefined)).2.val =
      (self.bagOf uid key).getD (.atom .undefined) := rfl

theorem data_delete_bagOf (self : Webot) (uid key u k : String) :
    (self.data uid key (.atom .null)).1.bagOf u k =
      if u = uid ∧ k = key then none else self.bagOf u k := by
  simp only [Webot.data, Webot.bagOf, Webot.setBag]
  by_cases h : u = uid
  · subst h
    by_cases hk : k = key <;> simp [hk]
  · simp [h]

theorem data_write_bagOf (self : Webot) (uid key u k : String) (c : Rules) :
    (self.data uid key (.rules c)).1.bagOf u k =
      if u = uid ∧ k = key then some (.rules c) else self.bagOf u k := by
  simp only [Webot.data, Webot.bagOf, Webot.setBag]
  by_cases h : u = uid
  · subst h
    by_cases hk : k = key <;> simp [hk]
  · simp [h]

theorem tick_head (m : RuleModule) (r : Rule) (rest : List Rule) (i : Nat) (w : World) :
    (tick m (r :: rest) i w).events.head? = some (.tested i r (m.test r w)) := by
  rcases tick_cons_cases m r rest i w with ⟨h0, h⟩ | ⟨h0, w2, h⟩ | ⟨h0, e, w3, h⟩ | ⟨h0, w2, h⟩ <;>
    rw [h, h0] <;> rfl

theorem replySetup_waiter (self : Webot) (info : Info) (c : Rules)
    (h : self.bagOf info.user "waiter" = some (.rules c)) :
    self.replySetup info = .ok (c.toList ++ self.routes, waiterWorld self info c) := by
  have hv : (self.data (self.trimText info).user "waiter" (.atom .undefined)).2.val
      = .rules c := by
    rw [data_read_val, trimText_user, h]; rfl
  simp only [Webot.replySetup, hv, Val.truthy, if_true]
  rfl

theorem replySetup_none (self : Webot) (info : Info)
    (h : ((self.bagOf info.user "waiter").getD (.atom .undefined)).truthy = false) :
    self.replySetup info = .ok (self.routes,
      { info := self.trimText info,
        bot := ((self.data (self.trimText info).user "waiter" (.atom .undefined)).1.data
          (self.trimText info).user "rewait_count" (.atom .null)).1 }) := by
  have hv : ((self.data (self.trimText info).user "waiter" (.atom .undefined)).2.val).truthy
      = false := by
    rw [data_read_val, trimText_user, h]
  simp only [Webot.replySetup, hv]
  rfl

/-- C3: when the user has a stored waiter, the list scanned by the dispatch is
the waiter (its rules, when it is an array) followed by the registered routes in
registration order, and the first thing the dispatch does is to test the waiter,
whatever the routes are; when the user has no stored waiter the list scanned is
exactly the registered routes. -/
theorem waiter_scanned_first (m : RuleModule) (self : Webot) (info : Info) :
    (∀ c : Rules, self.bagOf info.user "waiter" = some (.rules c) →
      ∃ w : World, self.replySetup info = .ok (c.toList ++ self.routes, w) ∧
        self.reply m info = Webot._reply m (c.toList ++ self.routes) w ∧
        ∃ (first : Rule) (more : List Rule), c.toList = first :: more ∧
          (self.reply m info).events.head? = some (.tested 0 first (m.test first w))) ∧
    (∀ r : Rule, self.bagOf info.user "waiter" = some (.rules (.one r)) →
      ∃ w : World, self.replySetup info = .ok (r :: self.routes, w) ∧
        self.reply m info = Webot._reply m (r :: self.routes) w) ∧
    (((self.bagOf info.user "waiter").getD (.atom .undefined)).truthy = false →
      ∃ w : World, self.replySetup info = .ok (self.routes, w) ∧
        self.reply m info = Webot._reply m self.routes w) := by
  refine ⟨?_, ?_, ?_⟩
  · intro c h
    have hs := replySetup_waiter self info c h
    have hr : self.reply m info =
        Webot._reply m (c.toList ++ self.routes) (waiterWorld self info c) := by
      simp only [Webot.reply, hs]
    refine ⟨_, hs, hr, ?_⟩
    cases c with
    | one r => exact ⟨r, [], rfl, by rw [hr]; exact tick_head m r _ 0 _⟩
    | many first more => exact ⟨first, more, rfl, by rw [hr]; exact tick_head m first _ 0 _⟩
  · intro r h
    have hs := replySetup_waiter self info (.one r) h
    exact ⟨_, hs, by simp only [Webot.reply, hs]; rfl⟩
  · intro h
    have hs := replySetup_none self info h
    exact ⟨_, hs, by simp only [Webot.reply, hs]⟩

/-- Scenario B, run on the sample module: the rule "book" fires for `u2`, and
the next message "confirm" is tested against the armed waiter first and matches
it, although no registered route has that pattern. -/
theorem waiter_scanned_first_witness :
    ((robot [book]).reply sampleModule (message "u2" "book")).world.bot.bagOf "u2" "waiter" =
      some (.rules (.one (rule (.str "confirm") (.str "ok")))) ∧
    ∃ w : World,
      ((robot [book]).reply sampleModule (message "u2" "book")).world.bot.replySetup
        (message "u2" "confirm") = .ok (rule (.str "confirm") (.str "ok") :: [book], w) :=
  ⟨by decide,
    match (waiter_scanned_first sampleModule
      ((robot [book]).reply sampleModule (message "u2" "book")).world.bot
      (message "u2" "confirm")).2.1 (rule (.str "confirm") (.str "ok")) (by decide) with
    | ⟨w, h, _⟩ => ⟨w, h⟩⟩

theorem waiterWorld_bagOf (self : Webot) (info : Info) (c : Rules) (k : String) :
    (waiterWorld self info c).bot.bagOf info.user k =
      if k = "last_waited" then some (.rules c)
      else if k = "waiter" then none else self.bagOf info.user k := by
  have hne : (Val.rules c ≠ Val.atom Atom.undefined) = True := by simp
  simp only [waiterWorld, Webot._last_waited, hne, if_true, trimText_user, data_write_bagOf,
    data_delete_bagOf, data_read_bagOf, true_and]

theorem waiterWorld_rewaitCount (self : Webot) (info : Info) (c : Rules) :
    (waiterWorld self info c).info.rewaitCount =
      ((self.bagOf info.user "rewait_count").getD (.atom .undefined)).or (.atom (.num 0)) := by
  simp only [waiterWorld, data_read_val, trimText_user, data_read_bagOf]

/-- C4: when the user has the stored waiter `c`, the world in which the scan
starts, before any rule is tested or executed, holds no waiter for that user,
holds `c` as `last_waited`, and carries in `info.rewaitCount` the stored
`rewait_count` (0 when there is none); hence a later dispatch for that user,
on any store in which the waiter has not been armed again, scans the routes
only: the stored waiter is consumed once. -/
theorem waiter_consumed_before_scan (m : RuleModule) (self : Webot) (info : Info) (c : Rules)
    (h : self.bagOf info.user "waiter" = some (.rules c)) :
    ∃ (rules : List Rule) (w : World),
      self.replySetup info = .ok (rules, w) ∧
      self.reply m info = Webot._reply m rules w ∧
      w.bot.bagOf info.user "waiter" = none ∧
      w.bot.bagOf info.user "last_waited" = some (.rules c) ∧
      (∀ n : Int, self.bagOf info.user "rewait_count" = some (.atom (.num n)) →
        w.info.rewaitCount = .atom (.num n)) ∧
      (self.bagOf info.user "rewait_count" = none → w.info.rewaitCount = .atom (.num 0)) ∧
      (∀ (later : Webot) (next : Info), next.user = info.user →
        later.bagOf info.user "waiter" = w.bot.bagOf info.user "waiter" →
        ∃ w2 : World, later.replySetup next = .ok (later.routes, w2) ∧
          later.reply m next = Webot._reply m later.routes w2) := by
  have hs := replySetup_waiter self info c h
  have hw : (waiterWorld self info c).bot.bagOf info.user "waiter" = none := by
    rw [waiterWorld_bagOf]; simp
  refine ⟨_, _, hs, by simp only [Webot.reply, hs], hw, ?_, ?_, ?_, ?_⟩
  · rw [waiterWorld_bagOf]; simp
  · intro n hn
    rw [waiterWorld_rewaitCount, hn]
    by_cases h0 : n = 0
    · subst h0; rfl
    · simp [Val.or, Val.truthy, Atom.truthy, h0]
  · intro hn
    rw [waiterWorld_rewaitCount, hn]
    rfl
  · intro later next hu hl
    rw [hw, ← hu] at hl
    have hf : ((later.bagOf next.user "waiter").getD (.atom .undefined)).truthy = false := by
      rw [hl]; rfl
    have hs2 := replySetup_none later next hf
    exact ⟨_, hs2, by simp only [Webot.reply, hs2]⟩

theorem waiter_consumed_before_scan_witness :
    armed.bagOf "u2" "waiter" = some (.rules (.one (rule (.str "confirm") (.str "ok")))) ∧
    ∃ (rules : List Rule) (w : World),
      armed.replySetup (message "u2" "confirm") = .ok (rules, w) ∧
      w.bot.bagOf "u2" "waiter" = none ∧
      w.bot.bagOf "u2" "last_waited" =
        some (.rules (.one (rule (.str "confirm") (.str "ok")))) ∧
      w.info.rewaitCount = .atom (.num 2) :=
  ⟨by decide,
    match waiter_consumed_before_scan sampleModule armed (message "u2" "confirm")
      (.one (rule (.str "confirm") (.str "ok"))) (by decide) with
    | ⟨rules, w, h1, _, h3, h4, h5, _⟩ => ⟨rules, w, h1, h3, h4, h5 2 (by decide)⟩⟩

/-! ## Termination of a dispatch -/

theorem end_of_reply (e : Atom) (w : World) (h : w.info.reply.truthy = true) :
    end_ e w = { world := w, events := [.called e w.info] } := by
  simp only [end_, h, Atom.or, Bool.not_true, Bool.false_eq_true, if_false, if_true, ite_self]

theorem or_500_truthy (e : Atom) : (e.or (.num 500)).truthy = true := by
  unfold Atom.or
  split
  · assumption
  · rfl

theorem end_no_reply (e : Atom) (w : World) (h : w.info.reply.truthy = false) :
    end_ e w =
      { world := { w with info := { w.info with reply := code2reply (e.or (.num 500)) } },
        events := [.called (e.or (.num 500))
          { w.info with reply := code2reply (e.or (.num 500)) }] } := by
  have h5 := or_500_truthy e
  simp only [end_, h, Bool.not_false, if_true, h5]
  simp [Atom.or, h]

theorem end_bot (e : Atom) (w : World) : (end_ e w).world.bot = w.bot := rfl

theorem settle_reply (m : RuleModule) (r : Rule) (result : Atom) (w : World) :
    (settle m r result w).info.reply = result := rfl

theorem settle_user (m : RuleModule) (r : Rule) (result : Atom) (w : World) :
    (settle m r result w).info.user = w.info.user := by
  unfold settle
  split <;> rfl

/-- C5: when the completion of an executed rule `r` is terminal (truthy result
or `info.ended` set), the callback of `tick` assigns the handler's result to
`info.reply` before calling `end`, and a truthy result is the reply the caller
receives; if `r` declares replies, the waiter of the user in the store afterwards
is what `wait` makes of `Rule.convert(r.replies, r)`, which is that converted
rule itself when `Rule.convert` leaves a converted rule as it is; if `r` declares
no replies, the engine leaves the store as the handler left it, so that the user
has no waiter afterwards unless the handler armed one. -/
theorem terminal_rule_arms_waiter (m : RuleModule) (r : Rule) (rest : List Rule) (i : Nat)
    (w : World) (c : Completion)
    (hr : m.test r w = true) (he : (m.exec r (mark w i r)).2 = some c)
    (ht : (c.result.truthy || (m.exec r (mark w i r)).1.info.ended.truthy) = true) :
    tick m (r :: rest) i w =
      (end_ c.err (settle m r c.result (m.exec r (mark w i r)).1)).after
        [.tested i r true, .executed i r] ∧
    (settle m r c.result (m.exec r (mark w i r)).1).info.reply = c.result ∧
    (c.result.truthy = true →
      (tick m (r :: rest) i w).world.info.reply = c.result ∧
      ∃ info : Info, info.reply = c.result ∧
        (tick m (r :: rest) i w).events =
          [.tested i r true, .executed i r, .called c.err info]) ∧
    (r.replies.truthy = true →
      (tick m (r :: rest) i w).world.bot.bagOf (m.exec r (mark w i r)).1.info.user "waiter" =
        some (.rules (m.convert (.rules (m.convert (.atom r.replies) (some r))) none)) ∧
      (m.convert (.rules (m.convert (.atom r.replies) (some r))) none =
          m.convert (.atom r.replies) (some r) →
        (tick m (r :: rest) i w).world.bot.bagOf (m.exec r (mark w i r)).1.info.user "waiter" =
          some (.rules (m.convert (.atom r.replies) (some r))))) ∧
    (r.replies.truthy = false →
      (tick m (r :: rest) i w).world.bot = (m.exec r (mark w i r)).1.bot ∧
      ((m.exec r (mark w i r)).1.bot.bagOf (m.exec r (mark w i r)).1.info.user "waiter" = none →
        (tick m (r :: rest) i w).world.bot.bagOf (m.exec r (mark w i r)).1.info.user "waiter" =
          none)) := by
  have hrun := tick_done m r rest i w c hr he ht
  refine ⟨hrun, rfl, ?_, ?_, ?_⟩
  · intro hres
    have hs : (settle m r c.result (m.exec r (mark w i r)).1).info.reply.truthy = true := hres
    rw [hrun, end_of_reply _ _ hs]
    exact ⟨rfl, _, rfl, rfl⟩
  · intro hrep
    have hb : (tick m (r :: rest) i w).world.bot.bagOf (m.exec r (mark w i r)).1.info.user
        "waiter" =
        some (.rules (m.convert (.rules (m.convert (.atom r.replies) (some r))) none)) := by
      rw [hrun, after_world, end_bot]
      simp only [settle, hrep, if_true, Info.wait, Webot.wait, Val.truthy, data_write_bagOf]
      simp
    refine ⟨hb, ?_⟩
    intro hid
    rw [hb, hid]
  · intro hrep
    have hb : (tick m (r :: rest) i w).world.bot = (m.exec r (mark w i r)).1.bot := by
      rw [hrun, after_world, end_bot]
      simp only [settle, hrep, Bool.false_eq_true, if_false]
    exact ⟨hb, fun h0 => by rw [hb]; exact h0⟩

/-- Scenario A, run on the sample module: the rule with pattern "hi" and reply
"hello" answers the message "hi" of `u1` with "hello" and a null error, and
leaves no waiter. -/
theorem terminal_rule_arms_waiter_witness :
    ((robot [rule (.str "hi") (.str "hello")]).reply sampleModule (message "u1" "hi")).events =
      [.tested 0 (rule (.str "hi") (.str "hello")) true,
        .executed 0 (rule (.str "hi") (.str "hello")),
        .called .null
          { message "u1" "hi" with
            reply := .str "hello", ruleIndex := some 0,
            currentRule := some (rule (.str "hi") (.str "hello")) }] ∧
    ((robot [rule (.str "hi") (.str "hello")]).reply sampleModule
      (message "u1" "hi")).world.bot.bagOf "u1" "waiter" = none ∧
    (tick sampleModule [book] 0 (fresh "u2" "book")).world.bot.bagOf "u2" "waiter" =
      some (.rules (.one (rule (.str "confirm") (.str "ok")))) :=
  ⟨by decide, by decide,
    ((terminal_rule_arms_waiter sampleModule book [] 0 (fresh "u2" "book")
      { err := .null, result := .str "ok" } (by decide) (by decide) (by decide)).2.2.2.1
        (by decide)).2 (by decide)⟩

theorem calls_append (a b : List Event) : calls (a ++ b) = calls a + calls b := by
  simp [calls, List.filter_append]

theorem calls_end (e : Atom) (w : World) : calls (end_ e w).events = 1 := rfl

theorem tick_passes (m : RuleModule) (pre rest : List Rule) :
    ∀ (i : Nat) (w w2 : World), passes m pre i w = some w2 →
      ∃ es, tick m (pre ++ rest) i w = (tick m rest (i + pre.length) w2).after es ∧
        calls es = 0 := by
  induction pre with
  | nil =>
    intro i w w2 h
    simp only [passes, Option.some.injEq] at h
    subst h
    exact ⟨[], rfl, rfl⟩
  | cons p ps ih =>
    intro i w w2 h
    have hlen : i + (p :: ps).length = i + 1 + ps.length := by
      simp only [List.length_cons]; omega
    cases ht : m.test p w with
    | false =>
      simp only [passes, ht, Bool.not_false, if_true] at h
      obtain ⟨es, h1, h2⟩ := ih (i + 1) w w2 h
      refine ⟨.tested i p false :: es, ?_, ?_⟩
      · rw [List.cons_append, tick_miss m p _ i w ht, h1, after_after, hlen]; rfl
      · rw [← List.singleton_append, calls_append, h2]; rfl
    | true =>
      simp only [passes, ht, Bool.not_true, Bool.false_eq_true, if_false] at h
      rcases hx : m.exec p (mark w i p) with ⟨w3, oc⟩
      rw [hx] at h
      cases oc with
      | none => simp at h
      | some c =>
        simp only at h
        cases hd : (c.result.truthy || w3.info.ended.truthy) with
        | true => simp [hd] at h
        | false =>
          simp only [hd, Bool.false_eq_true, if_false] at h
          obtain ⟨es, h1, h2⟩ := ih (i + 1) w3 w2 h
          have he : (m.exec p (mark w i p)).2 = some c := by rw [hx]
          have hd2 : (c.result.truthy || (m.exec p (mark w i p)).1.info.ended.truthy)
              = false := by rw [hx]; exact hd
          refine ⟨.tested i p true :: .executed i p :: es, ?_, ?_⟩
          · rw [List.cons_append, tick_decline m p _ i w c ht he hd2, hx, h1, after_after,
              hlen]
            rfl
          · have : Event.tested i p true :: Event.executed i p :: es =
                [Event.tested i p true, Event.executed i p] ++ es := rfl
            rw [this, calls_append, h2]; rfl

/-! ## The reply coder -/

theorem toDigitsCore_ne_nil (b : Nat) :
    ∀ (fuel n : Nat) (ds : List Char), ds ≠ [] → Nat.toDigitsCore b fuel n ds ≠ [] := by
  intro fuel
  induction fuel with
  | zero => intro n ds h; simpa [Nat.toDigitsCore] using h
  | succ f ih =>
    intro n ds _
    simp only [Nat.toDigitsCore]
    split
    · simp
    · exact ih _ _ (by simp)

theorem repr_ne_empty (n : Nat) : Nat.repr n ≠ "" := by
  intro h
  have h2 : (Nat.repr n).data = [] := by rw [h]
  simp only [Nat.repr, List.asString] at h2
  unfold Nat.toDigits at h2
  simp only [Nat.toDigitsCore] at h2
  split at h2
  · simp at h2
  · exact toDigitsCore_ne_nil 10 _ _ _ (by simp) h2

theorem int_toString_ne_empty (n : Int) : toString n ≠ "" := by
  cases n with
  | ofNat k => exact repr_ne_empty k
  | negSucc k =>
    intro h
    have h2 : (toString (Int.negSucc k)).data = [] := by rw [h]
    have h3 : toString (Int.negSucc k) = "-" ++ Nat.repr (k + 1) := rfl
    rw [h3, String.data_append] at h2
    simp at h2

theorem toStr_empty (a : Atom) (h : a.truthy = true) (h0 : a.toStr = "") :
    ∃ id, a = .obj id "" := by
  cases a with
  | undefined => simp [Atom.truthy] at h
  | null => simp [Atom.truthy] at h
  | bool b =>
    cases b
    · simp [Atom.truthy] at h
    · simp [Atom.toStr] at h0
  | num n => exact absurd h0 (int_toString_ne_empty n)
  | str s =>
    simp only [Atom.toStr] at h0
    subst h0
    simp [Atom.truthy] at h
  | obj id r =>
    simp only [Atom.toStr] at h0
    subst h0
    exact ⟨id, rfl⟩

theorem codeReplies_truthy (c t : String) (h : codeReplies c = some t) :
    (Atom.str t).truthy = true := by
  unfold codeReplies at h
  split at h <;> simp at h <;> subst h <;> decide

theorem inherited_truthy (c : String) (member : Atom) (h : inherited c = some member) :
    member.truthy = true := by
  unfold inherited at h
  split at h <;> simp at h <;> subst h <;> rfl

theorem code2reply_truthy (e : Atom) (h : e.truthy = true) :
    (code2reply e).truthy = true ∨ ∃ id, e = .obj id "" := by
  unfold code2reply
  simp only
  split
  · rename_i t ht
    left
    have := codeReplies_truthy _ _ ht
    simp [Atom.or, this]
  · split
    · rename_i member hm
      left
      have := inherited_truthy _ _ hm
      simp [Atom.or, this]
    · by_cases h0 : e.toStr = ""
      · exact Or.inr (toStr_empty e h h0)
      · left
        simp [Atom.truthy, h0]

theorem end_shape (e : Atom) (w : World) :
    ∃ (e2 : Atom) (info : Info), (end_ e w).events = [.called e2 info] ∧
      (end_ e w).world.info = info ∧
      (info.reply.truthy = true ∨ ∃ id, e2 = .obj id "") := by
  cases h : w.info.reply.truthy with
  | true =>
    rw [end_of_reply e w h]
    exact ⟨e, w.info, rfl, rfl, Or.inl h⟩
  | false =>
    rw [end_no_reply e w h]
    exact ⟨_, _, rfl, rfl, code2reply_truthy _ (or_500_truthy e)⟩

theorem trimText_reply (self : Webot) (info : Info) : (self.trimText info).reply = info.reply := by
  unfold Webot.trimText
  split
  · split <;> rfl
  · rfl

/-! ## What the caller receives -/

/-- C6, the claim as stated fails: on an empty rule set the message "hi" is
answered with error 404 and the 404 text of the table alone; the message text
does not follow it. -/
theorem not_found_reply_counterexample :
    ((robot []).reply sampleModule (message "u1" "hi")).events =
      [.called (.num 404) { message "u1" "hi" with reply := .str "听不懂你说的: " }] ∧
    Atom.str "听不懂你说的: " ≠ Atom.str ("听不懂你说的: " ++ "hi") := by
  decide

/-- C6, amended: when the list is exhausted without a terminal match the
callback receives the error 404, and `info.reply` is the reply already on the
envelope when that is truthy and otherwise the 404 text of the table, with
nothing appended; in particular, for an empty rule set, a user with no waiter
and an envelope that carries no reply, whatever the message text. -/
theorem exhausted_gives_404 (m : RuleModule) :
    (∀ (rules : List Rule) (i : Nat) (w w2 : World), passes m rules i w = some w2 →
      ∃ es, calls es = 0 ∧
        (tick m rules i w).events = es ++
          [.called (.num 404)
            { w2.info with
              reply := if w2.info.reply.truthy then w2.info.reply
                else .str "听不懂你说的: " }]) ∧
    (∀ (self : Webot) (info : Info), self.routes = [] →
      ((self.bagOf info.user "waiter").getD (.atom .undefined)).truthy = false →
      info.reply.truthy = false →
      (self.reply m info).events =
        [.called (.num 404) { self.trimText info with reply := .str "听不懂你说的: " }]) := by
  have hend : ∀ w : World, (end_ (.num 404) w).events =
      [.called (.num 404)
        { w.info with
          reply := if w.info.reply.truthy then w.info.reply else .str "听不懂你说的: " }] := by
    intro w
    cases h : w.info.reply.truthy with
    | true => rw [end_of_reply _ _ h]; rfl
    | false => rw [end_no_reply _ _ h]; rfl
  constructor
  · intro rules i w w2 hp
    obtain ⟨es, h1, h2⟩ := tick_passes m rules [] i w w2 hp
    refine ⟨es, h2, ?_⟩
    rw [List.append_nil] at h1
    rw [h1, after_events, tick_nil, hend]
  · intro self info hroutes hw hrep
    have hs := replySetup_none self info hw
    have hr : (self.trimText info).reply.truthy = false := by rw [trimText_reply]; exact hrep
    simp only [Webot.reply, hs, Webot._reply, hroutes, tick_nil]
    rw [hend]
    simp only [hr, Bool.false_eq_true, if_false]

theorem exhausted_gives_404_witness :
    passes sampleModule [rule .null (fn 5)] 0 (fresh "u1" "hi") =
      some (sampleModule.exec (rule .null (fn 5))
        (mark (fresh "u1" "hi") 0 (rule .null (fn 5)))).1 ∧
    ∃ es, calls es = 0 ∧
      (tick sampleModule [rule .null (fn 5)] 0 (fresh "u1" "hi")).events = es ++
        [.called (.num 404)
          { message "u1" "hi" with
            reply := .str "draft", ruleIndex := some 0,
            currentRule := some (rule .null (fn 5)) }] :=
  ⟨rfl, (exhausted_gives_404 sampleModule).1 [rule .null (fn 5)] 0 (fresh "u1" "hi") _ rfl⟩

/-- C7, the claim as stated fails: the first rule reports the error "boom" with
no result and without setting `info.ended`; the dispatch does not terminate
there, the second rule is executed and the caller receives its reply with a null
error. -/
theorem handler_error_counterexample :
    (sampleModule.exec (rule .null (fn 2)) (mark (fresh "u1" "hi") 0 (rule .null (fn 2)))).2 =
      some { err := .str "boom", result := .undefined } ∧
    (Webot._reply sampleModule [rule .null (fn 2), rule .null (.str "ok")]
      (fresh "u1" "hi")).events =
      [.tested 0 (rule .null (fn 2)) true, .executed 0 (rule .null (fn 2)),
        .tested 1 (rule .null (.str "ok")) true, .executed 1 (rule .null (.str "ok")),
        .called .null
          { message "u1" "hi" with
            reply := .str "ok", ruleIndex := some 1,
            currentRule := some (rule .null (.str "ok")) }] := by
  decide

/-- C7, amended: whenever the completion of an executed rule is terminal (truthy
result or `info.ended` set) and reports a truthy error `e`, the dispatch ends at
that rule, no later rule being tested or executed, and the callback receives
exactly `e`, with `info.reply` the handler's result when that is truthy and
otherwise the text of the reply coder for `e`. -/
theorem handler_error_reported (m : RuleModule) (r : Rule) (rest : List Rule) (i : Nat)
    (w : World) (c : Completion)
    (hr : m.test r w = true) (he : (m.exec r (mark w i r)).2 = some c)
    (ht : (c.result.truthy || (m.exec r (mark w i r)).1.info.ended.truthy) = true)
    (herr : c.err.truthy = true) :
    (tick m (r :: rest) i w).events =
      [.tested i r true, .executed i r,
        .called c.err
          { (settle m r c.result (m.exec r (mark w i r)).1).info with
            reply := if c.result.truthy then c.result else code2reply c.err }] := by
  rw [tick_done m r rest i w c hr he ht, after_events]
  cases hres : c.result.truthy with
  | true =>
    have hs : (settle m r c.result (m.exec r (mark w i r)).1).info.reply.truthy = true := hres
    rw [end_of_reply _ _ hs]
    rfl
  | false =>
    have hs : (settle m r c.result (m.exec r (mark w i r)).1).info.reply.truthy = false := hres
    have h5 : c.err.or (.num 500) = c.err := by simp [Atom.or, herr]
    rw [end_no_reply _ _ hs, h5]
    rfl

theorem handler_error_reported_witness :
    sampleModule.test (rule .null (fn 6)) (fresh "u1" "hi") = true ∧
    (tick sampleModule [rule .null (fn 6), rule .null (.str "ok")] 0 (fresh "u1" "hi")).events =
      [.tested 0 (rule .null (fn 6)) true, .executed 0 (rule .null (fn 6)),
        .called (.obj 9 "")
          { message "u1" "hi" with
            reply := .str "", ended := .bool true, ruleIndex := some 0,
            currentRule := some (rule .null (fn 6)) }] :=
  ⟨by decide,
    handler_error_reported sampleModule (rule .null (fn 6)) [rule .null (.str "ok")] 0
      (fresh "u1" "hi") { err := .obj 9 "", result := .undefined }
      (by decide) (by decide) (by decide) (by decide)⟩

/-- C8: when an executed rule ends the dispatch by setting `info.ended` while
reporting a falsy result and no error, the callback receives the error 500 and
`info.reply` is the text of the reply coder for 500, whatever the handler had
assigned to `info.reply` before completing. -/
theorem forced_end_gives_500 (m : RuleModule) (r : Rule) (rest : List Rule) (i : Nat)
    (w : World) (c : Completion)
    (hr : m.test r w = true) (he : (m.exec r (mark w i r)).2 = some c)
    (hres : c.result.truthy = false) (herr : c.err.truthy = false)
    (hend : (m.exec r (mark w i r)).1.info.ended.truthy = true) :
    (tick m (r :: rest) i w).events =
      [.tested i r true, .executed i r,
        .called (.num 500)
          { (settle m r c.result (m.exec r (mark w i r)).1).info with
            reply := .str "服务器临时出了一点问题，您稍后再来好吗" }] ∧
    code2reply (.num 500) = .str "服务器临时出了一点问题，您稍后再来好吗" := by
  have ht : (c.result.truthy || (m.exec r (mark w i r)).1.info.ended.truthy) = true := by
    rw [hend]; simp
  have hs : (settle m r c.result (m.exec r (mark w i r)).1).info.reply.truthy = false := hres
  have h5 : c.err.or (.num 500) = .num 500 := by simp [Atom.or, herr]
  have hc : code2reply (.num 500) = .str "服务器临时出了一点问题，您稍后再来好吗" := by decide
  refine ⟨?_, hc⟩
  rw [tick_done m r rest i w c hr he ht, after_events, end_no_reply _ _ hs, h5, hc]
  rfl

theorem forced_end_gives_500_witness :
    (sampleModule.exec (rule .null (fn 7))
      (mark (fresh "u1" "hi") 0 (rule .null (fn 7)))).1.info.reply = .str "draft" ∧
    (tick sampleModule [rule .null (fn 7)] 0 (fresh "u1" "hi")).events =
      [.tested 0 (rule .null (fn 7)) true, .executed 0 (rule .null (fn 7)),
        .called (.num 500)
          { message "u1" "hi" with
            reply := .str "服务器临时出了一点问题，您稍后再来好吗", ended := .bool true,
            ruleIndex := some 0, currentRule := some (rule .null (fn 7)) }] :=
  ⟨by decide,
    (forced_end_gives_500 sampleModule (rule .null (fn 7)) [] 0 (fresh "u1" "hi")
      { err := .null, result := .undefined }
      (by decide) (by decide) (by decide) (by decide) (by decide)).1⟩

theorem tick_calls_once (m : RuleModule) (hdone : ∀ (r : Rule) (w : World), (m.exec r w).2 ≠ none)
    (rules : List Rule) :
    ∀ (i : Nat) (w : World), ∃ (es : List Event) (e : Atom) (info : Info),
      (tick m rules i w).events = es ++ [.called e info] ∧ calls es = 0 ∧
      (tick m rules i w).world.info = info ∧
      (info.reply.truthy = true ∨ ∃ id, e = .obj id "") := by
  induction rules with
  | nil =>
    intro i w
    obtain ⟨e, info, h1, h2, h3⟩ := end_shape (.num 404) w
    exact ⟨[], e, info, by rw [tick_nil, h1]; rfl, rfl, by rw [tick_nil]; exact h2, h3⟩
  | cons r rest ih =>
    intro i w
    cases ht : m.test r w with
    | false =>
      obtain ⟨es, e, info, h1, h2, h3, h4⟩ := ih (i + 1) w
      refine ⟨.tested i r false :: es, e, info, ?_, ?_, ?_, h4⟩
      · rw [tick_miss m r rest i w ht, after_events, h1]; rfl
      · rw [← List.singleton_append, calls_append, h2]; rfl
      · rw [tick_miss m r rest i w ht, after_world]; exact h3
    | true =>
      cases he : (m.exec r (mark w i r)).2 with
      | none => exact absurd he (hdone _ _)
      | some c =>
        cases hd : (c.result.truthy || (m.exec r (mark w i r)).1.info.ended.truthy) with
        | true =>
          obtain ⟨e, info, h1, h2, h3⟩ :=
            end_shape c.err (settle m r c.result (m.exec r (mark w i r)).1)
          refine ⟨[.tested i r true, .executed i r], e, info, ?_, rfl, ?_, h3⟩
          · rw [tick_done m r rest i w c ht he hd, after_events, h1]
          · rw [tick_done m r rest i w c ht he hd, after_world]; exact h2
        | false =>
          obtain ⟨es, e, info, h1, h2, h3, h4⟩ := ih (i + 1) (m.exec r (mark w i r)).1
          refine ⟨[.tested i r true, .executed i r] ++ es, e, info, ?_, ?_, ?_, h4⟩
          · rw [tick_decline m r rest i w c ht he hd, after_events, h1, List.append_assoc]
          · rw [calls_append, h2]; rfl
          · rw [tick_decline m r rest i w c ht he hd, after_world]; exact h3

/-- C9, the claim as stated fails: a handler that replies with the number 42 has
the caller receive an envelope whose reply is that number, not a string. -/
theorem reply_is_string_counterexample :
    ((robot [rule .null (fn 4)]).reply sampleModule (message "u1" "hi")).events =
      [.tested 0 (rule .null (fn 4)) true, .executed 0 (rule .null (fn 4)),
        .called .null
          { message "u1" "hi" with
            reply := .num 42, ruleIndex := some 0,
            currentRule := some (rule .null (fn 4)) }] ∧
    ¬ ∃ s : String, Atom.num 42 = Atom.str s :=
  ⟨by decide, fun ⟨_, h⟩ => Atom.noConfusion h⟩

/-- C9, amended: provided every executed rule invokes its completion, `_reply`
invokes the callback exactly once, as the last thing it does, on every path; the
envelope passed is the one the dispatch leaves, and its reply is truthy (the
handler's result or the reply already on the envelope, of whatever type, or the
text of the reply coder for the error), except when the error reported is an
object whose string form is empty.  The same holds of `reply` whenever the stored
waiter, if any, is a rule value. -/
theorem callback_exactly_once (m : RuleModule)
    (hdone : ∀ (r : Rule) (w : World), (m.exec r w).2 ≠ none) :
    (∀ (rules : List Rule) (w : World),
      calls (Webot._reply m rules w).events = 1 ∧
      ∃ (es : List Event) (e : Atom) (info : Info),
        (Webot._reply m rules w).events = es ++ [.called e info] ∧ calls es = 0 ∧
        (Webot._reply m rules w).world.info = info ∧
        (info.reply.truthy = true ∨ ∃ id, e = .obj id "")) ∧
    (∀ (self : Webot) (info0 : Info) (rules : List Rule) (w : World),
      self.replySetup info0 = .ok (rules, w) →
      calls (self.reply m info0).events = 1 ∧
      ∃ (es : List Event) (e : Atom) (info : Info),
        (self.reply m info0).events = es ++ [.called e info] ∧ calls es = 0 ∧
        (self.reply m info0).world.info = info ∧
        (info.reply.truthy = true ∨ ∃ id, e = .obj id "")) := by
  have key : ∀ (rules : List Rule) (w : World),
      calls (Webot._reply m rules w).events = 1 ∧
      ∃ (es : List Event) (e : Atom) (info : Info),
        (Webot._reply m rules w).events = es ++ [.called e info] ∧ calls es = 0 ∧
        (Webot._reply m rules w).world.info = info ∧
        (info.reply.truthy = true ∨ ∃ id, e = .obj id "") := by
    intro rules w
    obtain ⟨es, e, info, h1, h2, h3, h4⟩ := tick_calls_once m hdone rules 0 w
    refine ⟨?_, es, e, info, h1, h2, h3, h4⟩
    simp only [Webot._reply]
    rw [h1, calls_append, h2]
    rfl
  refine ⟨key, ?_⟩
  intro self info0 rules w hs
  have hr : self.reply m info0 = Webot._reply m rules w := by simp only [Webot.reply, hs]
  rw [hr]
  exact key rules w

theorem callback_exactly_once_witness :
    calls (Webot._reply completing [rule .null (fn 8), rule .null (fn 4)]
      (fresh "u1" "hi")).events = 1 :=
  ((callback_exactly_once completing (by
      intro r w
      simp only [completing]
      split <;> simp)).1 [rule .null (fn 8), rule .null (fn 4)] (fresh "u1" "hi")).1

/-- C10, the claim as stated fails: a catch-all rule that is the only and last
rule, and that declines, leaves the list exhausted, and the caller receives the
error 404. -/
theorem catch_all_last_counterexample :
    sampleModule.test (rule .null (fn 1)) (fresh "u1" "hi") = true ∧
    (Webot._reply sampleModule [rule .null (fn 1)] (fresh "u1" "hi")).events =
      [.tested 0 (rule .null (fn 1)) true, .executed 0 (rule .null (fn 1)),
        .called (.num 404)
          { message "u1" "hi" with
            reply := .str "听不懂你说的: ", ruleIndex := some 0,
            currentRule := some (rule .null (fn 1)) }] := by
  decide

/-- C10, amended: when the last rule is a catch-all (its test is always true)
and no earlier rule terminates the dispatch, the catch-all is executed; if its
completion is terminal (truthy result or `info.ended` set) the error the caller
receives is the one the catch-all reported, or 500 when it reported neither a
result nor an error, and not the 404 of an exhausted list; if it declines, the
list is exhausted and the caller receives 404. -/
theorem catch_all_last (m : RuleModule) (pre : List Rule) (c : Rule) (i : Nat) (w w2 : World)
    (hp : passes m pre i w = some w2) (hc : ∀ x : World, m.test c x = true) :
    (∃ es tail, calls es = 0 ∧
      (tick m (pre ++ [c]) i w).events =
        es ++ .tested (i + pre.length) c true :: .executed (i + pre.length) c :: tail) ∧
    (∀ comp : Completion, (m.exec c (mark w2 (i + pre.length) c)).2 = some comp →
      (comp.result.truthy ||
        (m.exec c (mark w2 (i + pre.length) c)).1.info.ended.truthy) = true →
      ∃ es info, calls es = 0 ∧
        (tick m (pre ++ [c]) i w).events = es ++
          [.called (if comp.result.truthy then comp.err else comp.err.or (.num 500)) info]) ∧
    (∀ comp : Completion, (m.exec c (mark w2 (i + pre.length) c)).2 = some comp →
      (comp.result.truthy ||
        (m.exec c (mark w2 (i + pre.length) c)).1.info.ended.truthy) = false →
      ∃ es info, calls es = 0 ∧
        (tick m (pre ++ [c]) i w).events = es ++ [.called (.num 404) info]) := by
  obtain ⟨es, h1, h2⟩ := tick_passes m pre [c] i w w2 hp
  refine ⟨?_, ?_, ?_⟩
  · obtain ⟨tail, ht⟩ := tick_first m [] c [] (i + pre.length) w2 (by simp) (hc w2)
    refine ⟨es, tail, h2, ?_⟩
    rw [h1, after_events]
    simpa [missed] using ht
  · intro comp he ht
    rw [h1, after_events, tick_done m c [] _ w2 comp (hc w2) he ht, after_events]
    cases hres : comp.result.truthy with
    | true =>
      have hs : (settle m c comp.result
          (m.exec c (mark w2 (i + pre.length) c)).1).info.reply.truthy = true := hres
      rw [end_of_reply _ _ hs]
      refine ⟨es ++ [.tested (i + pre.length) c true, .executed (i + pre.length) c],
        (settle m c comp.result (m.exec c (mark w2 (i + pre.length) c)).1).info, ?_, ?_⟩
      · rw [calls_append, h2]; rfl
      · simp
    | false =>
      have hs : (settle m c comp.result
          (m.exec c (mark w2 (i + pre.length) c)).1).info.reply.truthy = false := hres
      rw [end_no_reply _ _ hs]
      refine ⟨es ++ [.tested (i + pre.length) c true, .executed (i + pre.length) c],
        { (settle m c comp.result (m.exec c (mark w2 (i + pre.length) c)).1).info with
          reply := code2reply (comp.err.or (.num 500)) }, ?_, ?_⟩
      · rw [calls_append, h2]; rfl
      · simp
  · intro comp he ht
    rw [h1, after_events, tick_decline m c [] _ w2 comp (hc w2) he ht, after_events, tick_nil]
    obtain ⟨e, info, hev⟩ := end_events (.num 404)
      (m.exec c (mark w2 (i + pre.length) c)).1
    have h404 : ∃ info, (end_ (.num 404) (m.exec c (mark w2 (i + pre.length) c)).1).events =
        [.called (.num 404) info] := by
      cases hq : (m.exec c (mark w2 (i + pre.length) c)).1.info.reply.truthy with
      | true => rw [end_of_reply _ _ hq]; exact ⟨_, rfl⟩
      | false => rw [end_no_reply _ _ hq]; exact ⟨_, rfl⟩
    obtain ⟨info4, h4⟩ := h404
    refine ⟨es ++ [.tested (i + pre.length) c true, .executed (i + pre.length) c], info4, ?_, ?_⟩
    · rw [calls_append, h2]; rfl
    · rw [h4]; simp

theorem catch_all_last_witness :
    passes matchAll [rule (.str "x") (fn 1)] 0 (fresh "u1" "hi") =
      some (matchAll.exec (rule (.str "x") (fn 1))
        (mark (fresh "u1" "hi") 0 (rule (.str "x") (fn 1)))).1 ∧
    ∃ es info, calls es = 0 ∧
      (tick matchAll ([rule (.str "x") (fn 1)] ++ [rule .null (.str "fallback")]) 0
        (fresh "u1" "hi")).events = es ++ [.called .null info] :=
  ⟨rfl,
    (catch_all_last matchAll [rule (.str "x") (fn 1)] (rule .null (.str "fallback")) 0
      (fresh "u1" "hi") _ rfl (fun _ => rfl)).2.1
      { err := .null, result := .str "fallback" } rfl rfl⟩

/-! ## Retrying a wait -/

theorem data_store_bagOf (self : Webot) (uid key u k : String) (v : Val)
    (h1 : v ≠ .atom .null) (h2 : v ≠ .atom .undefined) :
    (self.data uid key v).1.bagOf u k = if u = uid ∧ k = key then some v else self.bagOf u k := by
  unfold Webot.data
  split
  · exact absurd rfl h1
  · exact absurd rfl h2
  · simp only [Webot.bagOf, Webot.setBag]
    by_cases h : u = uid
    · subst h
      by_cases hk : k = key <;> simp [hk]
    · simp [h]

theorem nextCount_ne_null (v : Val) : nextCount v ≠ .atom .null := by
  unfold nextCount
  split
  · split <;> simp
  · simp

theorem nextCount_ne_undefined (v : Val) : nextCount v ≠ .atom .undefined := by
  unfold nextCount
  split
  · split <;> simp
  · simp

theorem toDouble_exact (x : Int) (h : x.natAbs ≤ 2 ^ 53) : toDouble x = x := by
  by_cases hlt : x.natAbs < 2 ^ 53
  · simp only [toDouble, hlt, if_true]
  · have hx : x = 9007199254740992 ∨ x = -9007199254740992 := by omega
    rcases hx with hx | hx <;> subst hx <;> decide

theorem nextCount_num (n : Int) (hn : n.natAbs < 2 ^ 53) :
    nextCount (.atom (.num n)) = .atom (.num (n + 1)) := by
  have hx : toDouble (n + 1) = n + 1 := toDouble_exact _ (by omega)
  unfold nextCount
  by_cases h : n = 0
  · subst h; rfl
  · simp [Val.truthy, Atom.truthy, h, hx]

theorem rewait_bagOf (m : RuleModule) (self : Webot) (u : String) (r : Rules)
    (h : self.bagOf u "last_waited" = some (.rules r)) (k : String) :
    (self.rewait m u).bagOf u k =
      if k = "waiter" then some (.rules (m.convert (.rules r) none))
      else if k = "rewait_count" then
        some (nextCount ((self.bagOf u "rewait_count").getD (.atom .undefined)))
      else self.bagOf u k := by
  have hlw : self._last_waited u (.atom .undefined) =
      ((self.data u "last_waited" (.atom .undefined)).1, some (.rules r)) := by
    simp only [Webot._last_waited, ne_eq, not_true_eq_false, if_false, data_read_val, h,
      Option.getD_some]
  have hrw : self.rewait m u =
      ((((self.data u "last_waited" (.atom .undefined)).1.data u "rewait_count"
          (.atom .undefined)).1.data u "rewait_count"
            (nextCount ((self.bagOf u "rewait_count").getD (.atom .undefined)))).1.data
        u "waiter" (.rules (m.convert (.rules r) none))).1 := by
    simp only [Webot.rewait, hlw, Option.getD_some, Val.truthy, if_true, Webot.wait,
      data_read_val, data_read_bagOf]
  rw [hrw]
  simp only [data_write_bagOf, true_and,
    data_store_bagOf _ _ _ _ _ _ (nextCount_ne_null _) (nextCount_ne_undefined _),
    data_read_bagOf]

/-- C11, the claim as stated fails: with `last_waited` present and a stored
count of 2^53, `rewait` leaves the count at 2^53: the sum 2^53 + 1 is no double,
and the addition rounds it back. -/
theorem rewait_counts_counterexample :
    saturated.bagOf "u2" "last_waited" =
      some (.rules (.one (rule (.str "confirm") (.str "ok")))) ∧
    saturated.bagOf "u2" "rewait_count" = some (.atom (.num 9007199254740992)) ∧
    (saturated.rewait sampleModule "u2").bagOf "u2" "rewait_count" =
      some (.atom (.num 9007199254740992)) := by
  decide

/-- C11, amended: for a user whose `last_waited` is the rule value `r`, `rewait`
stores `r`, as converted, as the waiter and leaves `last_waited` in place; with
no `rewait_count` it sets the count to 1, and it turns a count `n` of absolute
value below 2^53 into `n + 1`; a second consecutive `rewait` gives the count 2
with the same waiter, and the next `reply` for that user then starts with
`info.rewaitCount` equal to 2. -/
theorem rewait_counts (m : RuleModule) (self : Webot) (u : String) (r : Rules)
    (h : self.bagOf u "last_waited" = some (.rules r)) :
    (self.rewait m u).bagOf u "waiter" = some (.rules (m.convert (.rules r) none)) ∧
    (self.rewait m u).bagOf u "last_waited" = some (.rules r) ∧
    (∀ n : Int, n.natAbs < 2 ^ 53 →
      self.bagOf u "rewait_count" = some (.atom (.num n)) →
      (self.rewait m u).bagOf u "rewait_count" = some (.atom (.num (n + 1)))) ∧
    (self.bagOf u "rewait_count" = none →
      (self.rewait m u).bagOf u "rewait_count" = some (.atom (.num 1)) ∧
      ((self.rewait m u).rewait m u).bagOf u "rewait_count" = some (.atom (.num 2)) ∧
      ((self.rewait m u).rewait m u).bagOf u "waiter" =
        some (.rules (m.convert (.rules r) none)) ∧
      ∀ info : Info, info.user = u →
        ∃ (rules : List Rule) (w : World),
          ((self.rewait m u).rewait m u).replySetup info = .ok (rules, w) ∧
          w.info.rewaitCount = .atom (.num 2)) := by
  have h1 : (self.rewait m u).bagOf u "last_waited" = some (.rules r) := by
    rw [rewait_bagOf m self u r h]; simp [h]
  have hn : ∀ (s : Webot) (n : Int), n.natAbs < 2 ^ 53 →
      s.bagOf u "last_waited" = some (.rules r) →
      s.bagOf u "rewait_count" = some (.atom (.num n)) →
      (s.rewait m u).bagOf u "rewait_count" = some (.atom (.num (n + 1))) := by
    intro s n hb hs hc
    rw [rewait_bagOf m s u r hs, hc]
    simp [nextCount_num n hb]
  refine ⟨?_, h1, fun n hb hc => hn self n hb h hc, ?_⟩
  · rw [rewait_bagOf m self u r h]; simp
  · intro hc
    have hc1 : (self.rewait m u).bagOf u "rewait_count" = some (.atom (.num 1)) := by
      rw [rewait_bagOf m self u r h, hc]
      simp [nextCount, Val.truthy, Atom.truthy]
    have hc2 : ((self.rewait m u).rewait m u).bagOf u "rewait_count" =
        some (.atom (.num 2)) := hn _ 1 (by decide) h1 hc1
    have hw2 : ((self.rewait m u).rewait m u).bagOf u "waiter" =
        some (.rules (m.convert (.rules r) none)) := by
      rw [rewait_bagOf m _ u r h1]; simp
    refine ⟨hc1, hc2, hw2, ?_⟩
    intro info hu
    subst hu
    refine ⟨_, _, replySetup_waiter _ info _ hw2, ?_⟩
    rw [waiterWorld_rewaitCount, hc2]
    rfl

theorem rewait_counts_witness :
    consumed.bagOf "u2" "last_waited" =
      some (.rules (.one (rule (.str "confirm") (.str "ok")))) ∧
    consumed.bagOf "u2" "rewait_count" = none ∧
    (consumed.rewait sampleModule "u2").bagOf "u2" "rewait_count" = some (.atom (.num 1)) ∧
    ((consumed.rewait sampleModule "u2").rewait sampleModule "u2").bagOf "u2" "rewait_count" =
      some (.atom (.num 2)) :=
  ⟨by decide, by decide,
    ((rewait_counts sampleModule consumed "u2" (.one (rule (.str "confirm") (.str "ok")))
      (by decide)).2.2.2 (by decide)).1,
    ((rewait_counts sampleModule consumed "u2" (.one (rule (.str "confirm") (.str "ok")))
      (by decide)).2.2.2 (by decide)).2.1⟩

theorem mark_bot (w : World) (i : Nat) (r : Rule) : (mark w i r).bot = w.bot := rfl

theorem settle_bagOf (m : RuleModule) (r : Rule) (result : Atom) (w : World) (u k : String)
    (hk : k ≠ "waiter") : (settle m r result w).bot.bagOf u k = w.bot.bagOf u k := by
  unfold settle
  split
  · simp only [Info.wait, Webot.wait, Val.truthy, if_true, data_write_bagOf]
    simp [hk]
  · rfl

theorem tick_bagOf (m : RuleModule) (u k : String) (hk : k ≠ "waiter")
    (hexec : ∀ (r : Rule) (w : World), (m.exec r w).1.bot.bagOf u k = w.bot.bagOf u k)
    (rules : List Rule) :
    ∀ (i : Nat) (w : World), (tick m rules i w).world.bot.bagOf u k = w.bot.bagOf u k := by
  induction rules with
  | nil => intro i w; rw [tick_nil, end_bot]
  | cons r rest ih =>
    intro i w
    cases ht : m.test r w with
    | false => rw [tick_miss m r rest i w ht, after_world, ih]
    | true =>
      have hx := hexec r (mark w i r)
      rw [mark_bot] at hx
      cases he : (m.exec r (mark w i r)).2 with
      | none => rw [tick_stall m r rest i w ht he]; exact hx
      | some c =>
        cases hd : (c.result.truthy || (m.exec r (mark w i r)).1.info.ended.truthy) with
        | true =>
          rw [tick_done m r rest i w c ht he hd, after_world, end_bot,
            settle_bagOf m r _ _ u k hk, hx]
        | false =>
          rw [tick_decline m r rest i w c ht he hd, after_world, ih, hx]

/-- C12: when the user has no stored waiter at the call of `reply`, the world in
which the scan starts has no `rewait_count` for that user, whatever was stored
before; and if no handler changes that key (none calls `rewait`), the store has
no `rewait_count` for the user after the dispatch either. -/
theorem rewait_count_reset (m : RuleModule) (self : Webot) (info : Info)
    (h : ((self.bagOf info.user "waiter").getD (.atom .undefined)).truthy = false) :
    ∃ w : World, self.replySetup info = .ok (self.routes, w) ∧
      self.reply m info = Webot._reply m self.routes w ∧
      w.bot.bagOf info.user "rewait_count" = none ∧
      ((∀ (r : Rule) (x : World),
          (m.exec r x).1.bot.bagOf info.user "rewait_count" =
            x.bot.bagOf info.user "rewait_count") →
        (self.reply m info).world.bot.bagOf info.user "rewait_count" = none) := by
  have hs := replySetup_none self info h
  have hr : self.reply m info = Webot._reply m self.routes
      { info := self.trimText info,
        bot := ((self.data (self.trimText info).user "waiter" (.atom .undefined)).1.data
          (self.trimText info).user "rewait_count" (.atom .null)).1 } := by
    simp only [Webot.reply, hs]
  have hb : (((self.data (self.trimText info).user "waiter" (.atom .undefined)).1.data
      (self.trimText info).user "rewait_count" (.atom .null)).1).bagOf info.user
        "rewait_count" = none := by
    rw [data_delete_bagOf, trimText_user]; simp
  refine ⟨_, hs, hr, hb, ?_⟩
  intro hexec
  rw [hr, Webot._reply, tick_bagOf m info.user "rewait_count" (by decide) hexec]
  exact hb

theorem rewait_count_reset_witness :
    ((armed.data "u2" "waiter" (.atom .null)).1.bagOf "u2" "rewait_count" =
      some (.atom (.num 2))) ∧
    ∃ w : World,
      (armed.data "u2" "waiter" (.atom .null)).1.replySetup (message "u2" "hello") =
        .ok ((armed.data "u2" "waiter" (.atom .null)).1.routes, w) ∧
      w.bot.bagOf "u2" "rewait_count" = none :=
  ⟨by decide,
    match rewait_count_reset sampleModule (armed.data "u2" "waiter" (.atom .null)).1
      (message "u2" "hello") (by decide) with
    | ⟨w, h1, _, h3, _⟩ => ⟨w, h1, h3⟩⟩

/-! ## Reading and writing a bag -/

theorem data_sets_key_aux (self : Webot) (u k : String) (v : Val) (k2 : String) (hk : k2 ≠ k) :
    (self.data u k v).1.bagOf u k2 = self.bagOf u k2 := by
  by_cases h1 : v = .atom .null
  · subst h1; rw [data_delete_bagOf]; simp [hk]
  · by_cases h2 : v = .atom .undefined
    · subst h2; rw [data_read_bagOf]
    · rw [data_store_bagOf self u k u k2 v h1 h2]; simp [hk]

/-- C13, the claim as stated fails: a rule object stored under the key "profile"
is kept under that key as one value; its field `pattern` is not merged into the
bag. -/
theorem data_object_value_counterexample :
    ("pattern", Val.atom (.str "book")) ∈ book.fields ∧
    ((robot []).data "u1" "profile" (.rules (.one book))).1.bagOf "u1" "pattern" = none ∧
    ((robot []).data "u1" "profile" (.rules (.one book))).1.bagOf "u1" "profile" =
      some (.rules (.one book)) := by
  decide

theorem dataGet_own (self : Webot) (u k : String) (v : Val) (h : self.bagOf u k = some v) :
    self.dataGet u k = v := by
  simp only [Webot.dataGet, h]

theorem dataGet_plain (self : Webot) (u k : String) (hk : inherited k = none)
    (hp : self.bagOf "__proto__" k = none) :
    self.dataGet u k = (self.bagOf u k).getD (.atom .undefined) := by
  unfold Webot.dataGet
  cases h : self.bagOf u k with
  | some v => rfl
  | none => simp only [hp, hk]; rfl

/-- C13, amended: for a user id and a string key `k` that name no member
inherited from `Object.prototype`, and a value `v`, `data` removes `k` from the
bag of the user when `v` is `null`; changes no key when `v` is `undefined`, and
then returns the stored value provided nothing has been stored under `k` for the
user id `__proto__`; and otherwise, whether `v` is an object or not, makes the
bag map `k` to `v`, which is then what is read under `k`; no key other than `k`
changes. -/
theorem data_sets_key (self : Webot) (u k : String) (v : Val)
    (hu : inherited u = none) (hk : inherited k = none) :
    u ≠ "__proto__" ∧
    (v = .atom .null → (self.data u k v).1.bagOf u k = none) ∧
    (v = .atom .undefined →
      (∀ k2 : String, (self.data u k v).1.bagOf u k2 = self.bagOf u k2) ∧
      (self.bagOf "__proto__" k = none →
        (self.data u k v).2.val = (self.bagOf u k).getD (.atom .undefined) ∧
        self.dataGet u k = (self.bagOf u k).getD (.atom .undefined))) ∧
    (v ≠ .atom .null → v ≠ .atom .undefined →
      (self.data u k v).1.bagOf u k = some v ∧ (self.data u k v).1.dataGet u k = v) ∧
    (∀ k2 : String, k2 ≠ k → (self.data u k v).1.bagOf u k2 = self.bagOf u k2) := by
  refine ⟨?_, ?_, ?_, ?_, ?_⟩
  · intro e
    subst e
    simp [inherited] at hu
  · intro h
    subst h
    rw [data_delete_bagOf]; simp
  · intro h
    subst h
    exact ⟨fun k2 => by rw [data_read_bagOf],
      fun hp => ⟨data_read_val self u k, dataGet_plain self u k hk hp⟩⟩
  · intro h1 h2
    have hb : (self.data u k v).1.bagOf u k = some v := by
      rw [data_store_bagOf self u k u k v h1 h2]; simp
    exact ⟨hb, dataGet_own _ u k v hb⟩
  · intro k2 hk2
    exact data_sets_key_aux self u k v k2 hk2

theorem data_sets_key_witness :
    inherited "u1" = none ∧ inherited "profile" = none ∧
    ((robot []).data "u1" "profile" (.atom (.obj 3 "[object Object]"))).1.bagOf "u1" "profile" =
      some (.atom (.obj 3 "[object Object]")) :=
  ⟨by decide, by decide,
    ((data_sets_key (robot []) "u1" "profile" (.atom (.obj 3 "[object Object]"))
      (by decide) (by decide)).2.2.2.1 (by decide) (by decide)).1⟩

/-- C14, at the failing input: `data("u1", null)` on a fresh robot does not
return the data of the user; it fails with a `ReferenceError`, after the bag of
the user has been created. -/
theorem data_null_key_fails :
    (Webot.new.dataNull "u1").2 = .error "ReferenceError: uid is not defined" ∧
    Webot.new._data_cache "u1" = none ∧
    ((Webot.new.dataNull "u1").1._data_cache "u1").isSome = true :=
  ⟨rfl, rfl, rfl⟩

/-- C15, the claim as stated fails: "constructor" is none of the four codes, yet
`code2reply` does not return it as a string: the table inherits a member of that
name, the function `Object`, and that is what is returned. -/
theorem code2reply_table_counterexample :
    codeReplies "constructor" = none ∧
    code2reply (.str "constructor") =
      .obj 9001 "function Object() \x7b [native code] \x7d" ∧
    code2reply (.str "constructor") ≠ .str (Atom.toStr (.str "constructor")) := by
  decide

/-- C15, amended: `code2reply` is a total function of the code; for each of the
codes 204, 403, 404 and 500, given as a number or as a string, it returns the
text of that code in `codeReplies`, which is not empty, and for every code whose
string form is none of these four and names no member inherited from
`Object.prototype` it returns that string form, which for a number of absolute
value below 10^21 is its decimal digits. -/
theorem code2reply_table :
    (code2reply (.num 204) = .str "你的消息已经收到，若未即时回复，还望海涵" ∧
      code2reply (.str "204") = .str "你的消息已经收到，若未即时回复，还望海涵") ∧
    (code2reply (.num 403) = .str "鉴权失败,你的Token不正确" ∧
      code2reply (.str "403") = .str "鉴权失败,你的Token不正确") ∧
    (code2reply (.num 404) = .str "听不懂你说的: " ∧
      code2reply (.str "404") = .str "听不懂你说的: ") ∧
    (code2reply (.num 500) = .str "服务器临时出了一点问题，您稍后再来好吗" ∧
      code2reply (.str "500") = .str "服务器临时出了一点问题，您稍后再来好吗") ∧
    (∀ c t : String, codeReplies c = some t → t ≠ "") ∧
    (∀ c : Atom, c.toStr ≠ "204" → c.toStr ≠ "403" → c.toStr ≠ "404" → c.toStr ≠ "500" →
      inherited c.toStr = none → (∀ n : Int, c = .num n → n.natAbs < 10 ^ 21) →
      code2reply c = .str c.toStr) := by
  refine ⟨by decide, by decide, by decide, by decide, ?_, ?_⟩
  · intro c t h
    have := codeReplies_truthy c t h
    intro h0
    subst h0
    simp [Atom.truthy] at this
  · intro c h1 h2 h3 h4 hi _
    have hn : codeReplies c.toStr = none := by
      unfold codeReplies
      split
      · exact absurd (by assumption) h1
      · exact absurd (by assumption) h2
      · exact absurd (by assumption) h3
      · exact absurd (by assumption) h4
      · rfl
    simp only [code2reply, hn, hi]

theorem code2reply_table_witness :
    code2reply (.num 302) = .str "302" ∧ code2reply (.str "busy") = .str "busy" :=
  ⟨code2reply_table.2.2.2.2.2 (.num 302) (by decide) (by decide) (by decide) (by decide)
      (by decide) (by intro n h; cases h; decide),
    code2reply_table.2.2.2.2.2 (.str "busy") (by decide) (by decide) (by decide) (by decide)
      (by decide) (by intro n h; cases h)⟩

/-! ## Registration and lookup -/

theorem describe_returns (args : List Arg) (h0 : args ≠ [])
    (hn : ∀ s : String, args ≠ [.text s, .null]) :
    ∃ d, describe args = some (.ok d) := by
  match args, h0, hn with
  | [a], _, _ =>
    cases a <;> exact ⟨_, rfl⟩
  | [a, b], _, hn =>
    cases a with
    | text s =>
      cases b with
      | null => exact absurd rfl (hn s)
      | func f => exact ⟨_, rfl⟩
      | text t => exact ⟨_, rfl⟩
      | object o => exact ⟨_, rfl⟩
      | other x => exact ⟨_, rfl⟩
    | func f => exact ⟨_, rfl⟩
    | null => exact ⟨_, rfl⟩
    | object o => exact ⟨_, rfl⟩
    | other x => exact ⟨_, rfl⟩
  | a :: b :: c :: rest, _, _ => exact ⟨_, rfl⟩

/-- C16: `set` with no argument leaves the routes as they are; every other call
of `set` returns, except the call of a string and `null`, which fails without a
change, and a call that returns leaves the routes before followed by the newly
converted rule or rules, so that every rule registered before keeps its index;
`get` with no name returns exactly the routes and changes nothing, so that two
such calls return equal lists. -/
theorem routes_append_only (conv : Descriptor → Rules) (self : Webot) (args : List Arg) :
    self.set conv [] = .ok self ∧
    (args ≠ [] → (∀ s : String, args ≠ [.text s, .null]) →
      ∃ d, describe args = some (.ok d) ∧
        self.set conv args = .ok { self with routes := self.routes ++ (conv d).toList }) ∧
    (∀ after : Webot, self.set conv args = .ok after →
      (∃ added, after.routes = self.routes ++ added) ∧
      ∀ (i : Nat) (r : Rule), self.routes[i]? = some r → after.routes[i]? = some r) ∧
    self.get .undefined = .ok self.routes ∧
    self.get .undefined = self.get .undefined := by
  refine ⟨rfl, ?_, ?_, rfl, rfl⟩
  · intro h0 hn
    obtain ⟨d, hd⟩ := describe_returns args h0 hn
    exact ⟨d, hd, by simp only [Webot.set, hd]⟩
  · intro after h
    have hadd : ∃ added, after.routes = self.routes ++ added := by
      unfold Webot.set at h
      split at h
      · injection h with h; subst h; exact ⟨[], by simp⟩
      · cases h
      · injection h with h; subst h; exact ⟨_, rfl⟩
    refine ⟨hadd, ?_⟩
    obtain ⟨added, ha⟩ := hadd
    intro i r hi
    rw [ha]
    have hlt : i < self.routes.length := by
      by_contra hge
      rw [List.getElem?_eq_none (by omega)] at hi
      cases hi
    rw [List.getElem?_append_left hlt]
    exact hi

theorem routes_append_only_witness :
    ∃ after : Webot,
      (robot [book]).set sampleConv [.text "hi", .text "hello"] = .ok after ∧
      after.routes = [book, rule (.str "hi") (.str "hello")] :=
  match (routes_append_only sampleConv (robot [book]) [.text "hi", .text "hello"]).2.1
    (by decide) (by intro s h; simp at h) with
  | ⟨_, hd, hs⟩ => ⟨_, hs, by
      have : describe [.text "hi", .text "hello"] =
        some (.ok (.literal (.atom (.str "hi")) (.atom (.str "hello"))
          (some (.atom .undefined)))) := rfl
      rw [this] at hd
      injection hd with hd
      injection hd with hd
      subst hd
      rfl⟩

/-- C17, at the failing input: `get("book")` on a robot whose only route has a
name does not return a rule; it fails with a `ReferenceError`, as it does for
every truthy name. -/
theorem get_by_name_fails :
    (robot [{ book with name := .str "book" }]).get (.str "book") =
      .error "ReferenceError: _ is not defined" ∧
    ∀ (self : Webot) (name : Atom), name.truthy = true →
      self.get name = .error "ReferenceError: _ is not defined" := by
  refine ⟨rfl, ?_⟩
  intro self name h
  simp [Webot.get, h]

/-- C18: the descriptor `set` hands to `Rule.convert` is fixed by the shape of
the call: one function gives a fresh object with a `null` pattern and that
handler; one argument that is no function gives the argument itself; a string
and an object give the object with its `name` set to the string; every other
call with two arguments, and every call with three, gives a fresh object with
the arguments as `pattern`, `handler` and `replies`, the last `undefined` when
there are two; so a string and a function are pattern and handler.  The routes
grow by the conversion of that descriptor. -/
theorem set_descriptor (conv : Descriptor → Rules) (self : Webot) :
    (∀ f : Atom, describe [.func f] = some (.ok (.literal (.atom .null) (.atom f) none))) ∧
    (∀ d : Arg, (∀ f : Atom, d ≠ .func f) → describe [d] = some (.ok (.given d.val))) ∧
    (∀ (s : String) (o : Val), describe [.text s, .object o] = some (.ok (.named o s))) ∧
    (∀ a b : Arg, ¬ ((∃ s, a = .text s) ∧ b.isObject = true) →
      describe [a, b] = some (.ok (.literal a.val b.val (some (.atom .undefined))))) ∧
    (∀ a b c : Arg, describe [a, b, c] = some (.ok (.literal a.val b.val (some c.val)))) ∧
    (∀ (s : String) (f : Atom), describe [.text s, .func f] =
      some (.ok (.literal (.atom (.str s)) (.atom f) (some (.atom .undefined))))) ∧
    (∀ (args : List Arg) (d : Descriptor), describe args = some (.ok d) →
      self.set conv args = .ok { self with routes := self.routes ++ (conv d).toList }) := by
  refine ⟨fun _ => rfl, ?_, fun _ _ => rfl, ?_, fun _ _ _ => rfl, fun _ _ => rfl, ?_⟩
  · intro d hd
    cases d with
    | func f => exact absurd rfl (hd f)
    | text s => rfl
    | null => rfl
    | object o => rfl
    | other a => rfl
  · intro a b h
    cases a with
    | text s =>
      cases b with
      | null => exact absurd ⟨⟨s, rfl⟩, rfl⟩ h
      | object o => exact absurd ⟨⟨s, rfl⟩, rfl⟩ h
      | func f => rfl
      | text t => rfl
      | other x => rfl
    | func f => rfl
    | null => rfl
    | object o => rfl
    | other x => rfl
  · intro args d hd
    simp only [Webot.set, hd]

theorem set_descriptor_witness :
    (robot []).set sampleConv [.text "hi", .func (fn 4)] =
      .ok { robot [] with routes := [rule (.str "hi") (fn 4)] } :=
  (set_descriptor sampleConv (robot [])).2.2.2.2.2.2 [.text "hi", .func (fn 4)] _
    ((set_descriptor sampleConv (robot [])).2.2.2.2.2.1 "hi" (fn 4))

/-! ## Trimming -/

theorem dropWhile_head_not (p : Char → Bool) (l : List Char) (c : Char)
    (h : (l.dropWhile p).head? = some c) : p c = false := by
  have := List.head?_dropWhile_not p l
  rw [h] at this
  exact this

theorem jsTrim_spec (s : String) :
    ∃ pre post : List Char, s.data = pre ++ (jsTrim s).data ++ post ∧
      (∀ c ∈ pre, isJsSpace c = true) ∧ (∀ c ∈ post, isJsSpace c = true) ∧
      (∀ c, (jsTrim s).data.head? = some c → isJsSpace c = false) ∧
      (∀ c, (jsTrim s).data.getLast? = some c → isJsSpace c = false) := by
  have hd : (jsTrim s).data =
      ((s.data.dropWhile isJsSpace).reverse.dropWhile isJsSpace).reverse := rfl
  have ha : s.data.dropWhile isJsSpace =
      ((s.data.dropWhile isJsSpace).reverse.dropWhile isJsSpace).reverse ++
        ((s.data.dropWhile isJsSpace).reverse.takeWhile isJsSpace).reverse := by
    rw [← List.reverse_append, List.takeWhile_append_dropWhile, List.reverse_reverse]
  refine ⟨s.data.takeWhile isJsSpace,
    ((s.data.dropWhile isJsSpace).reverse.takeWhile isJsSpace).reverse, ?_, ?_, ?_, ?_, ?_⟩
  · rw [hd, List.append_assoc, ← ha, List.takeWhile_append_dropWhile]
  · intro c hc
    exact List.mem_takeWhile_imp hc
  · intro c hc
    exact List.mem_takeWhile_imp (List.mem_reverse.mp hc)
  · intro c hc
    rw [hd] at hc
    apply dropWhile_head_not isJsSpace s.data c
    rw [ha, List.head?_append, hc]
    rfl
  · intro c hc
    rw [hd, List.getLast?_reverse] at hc
    exact dropWhile_head_not isJsSpace _ c hc

theorem replySetup_text (self : Webot) (info : Info) (rules : List Rule) (w : World)
    (h : self.replySetup info = .ok (rules, w)) :
    w.info.text = (self.trimText info).text := by
  unfold Webot.replySetup at h
  simp only at h
  split at h
  · split at h
    · injection h with h
      injection h with _ h
      subst h
      rfl
    · cases h
  · injection h with h
    injection h with _ h
    subst h
    rfl

/-- C19: `keepBlank` is true by default, also for a robot made without a
configuration, and it decides the trimming: when it is false, the text with
which the scan starts, the one the tests and handlers see, is the inbound text
without its leading and trailing white space; when it is true the envelope is
left as it came. -/
theorem keepBlank_controls_trim (self : Webot) (info : Info) :
    defaultConfig.keepBlank = .bool true ∧
    (Webot.create none).config.keepBlank = .bool true ∧
    (∀ (rules : List Rule) (w : World), self.replySetup info = .ok (rules, w) →
      w.info.text = (self.trimText info).text) ∧
    (self.config.keepBlank = .bool true → self.trimText info = info) ∧
    (self.config.keepBlank = .bool false → ∀ t : String, info.text = some t →
      (self.trimText info).text = some (jsTrim t)) ∧
    (∀ t : String, ∃ pre post : List Char, t.data = pre ++ (jsTrim t).data ++ post ∧
      (∀ c ∈ pre, isJsSpace c = true) ∧ (∀ c ∈ post, isJsSpace c = true) ∧
      (∀ c, (jsTrim t).data.head? = some c → isJsSpace c = false) ∧
      (∀ c, (jsTrim t).data.getLast? = some c → isJsSpace c = false)) := by
  refine ⟨rfl, rfl, replySetup_text self info, ?_, ?_, jsTrim_spec⟩
  · intro hk
    unfold Webot.trimText
    split
    · simp [hk, Atom.truthy]
    · rfl
  · intro hk t ht
    unfold Webot.trimText
    rw [ht]
    simp only [hk, Atom.truthy, Bool.not_false, Bool.true_and]
    by_cases h0 : t = ""
    · subst h0
      simp only [bne_self_eq_false, Bool.false_eq_true, if_false]
      rw [ht]
      rfl
    · simp [h0]

theorem keepBlank_controls_trim_witness :
    ({ robot [] with config := { keepBlank := .bool false } }.trimText
      (message "u1" "  hi there \n")).text = some "hi there" ∧
    ((robot []).trimText (message "u1" "  hi there \n")).text = some "  hi there \n" :=
  ⟨by
    rw [(keepBlank_controls_trim { robot [] with config := { keepBlank := .bool false } }
      (message "u1" "  hi there \n")).2.2.2.2.1 rfl "  hi there \n" rfl]
    decide,
   by decide⟩

/-! ## Isolation of users -/

theorem data_cache_other (self : Webot) (u k v : String) (value : Val) (h : v ≠ u) :
    (self.data u k value).1._data_cache v = self._data_cache v := by
  unfold Webot.data
  split <;> simp [Webot.setBag, h]

theorem wait_cache_other (m : RuleModule) (self : Webot) (u v : String) (rule : Val)
    (h : v ≠ u) : (self.wait m u rule)._data_cache v = self._data_cache v := by
  unfold Webot.wait
  split
  · exact data_cache_other _ _ _ _ _ h
  · rfl

theorem last_waited_cache_other (self : Webot) (u v : String) (rule : Val) (h : v ≠ u) :
    (self._last_waited u rule).1._data_cache v = self._data_cache v := by
  unfold Webot._last_waited
  split <;> exact data_cache_other _ _ _ _ _ h

theorem rewait_cache_other (m : RuleModule) (self : Webot) (u v : String) (h : v ≠ u) :
    (self.rewait m u)._data_cache v = self._data_cache v := by
  unfold Webot.rewait
  simp only
  split
  · rw [wait_cache_other _ _ _ _ _ h, data_cache_other _ _ _ _ _ h,
      data_cache_other _ _ _ _ _ h, last_waited_cache_other _ _ _ _ h]
  · exact last_waited_cache_other _ _ _ _ h

theorem setup_cache_other (self : Webot) (info : Info) (v : String) (h : v ≠ info.user) :
    (setupBot (self.replySetup info))._data_cache v = self._data_cache v := by
  have hu : v ≠ (self.trimText info).user := by rw [trimText_user]; exact h
  unfold Webot.replySetup
  simp only
  split
  · split <;>
      simp only [setupBot, last_waited_cache_other _ _ _ _ hu, data_cache_other _ _ _ _ _ hu]
  · simp only [setupBot, data_cache_other _ _ _ _ _ hu]

theorem dataGet_of_cache (s1 s2 : Webot) (v : String)
    (h1 : s1._data_cache v = s2._data_cache v)
    (h2 : s1._data_cache "__proto__" = s2._data_cache "__proto__") (k : String) :
    s1.dataGet v k = s2.dataGet v k := by
  simp only [Webot.dataGet, Webot.bagOf, h1, h2]

theorem proto_ne (u : String) (hu : inherited u = none) : "__proto__" ≠ u := by
  intro e
  subst e
  simp [inherited] at hu

/-- C20, the claim as stated fails: `__proto__` and `u1` are distinct user ids,
but the bag of `__proto__` is `Object.prototype`, from which the bag of `u1`
inherits: what `data` or `wait` stores for `__proto__` is read back for `u1`,
for whom nothing was stored. -/
theorem users_isolated_counterexample :
    "__proto__" ≠ "u1" ∧
    Webot.new.dataGet "u1" "k" = .atom .undefined ∧
    (Webot.new.data "__proto__" "k" (.atom (.str "v"))).1.dataGet "u1" "k" = .atom (.str "v") ∧
    Webot.new.dataGet "u1" "waiter" = .atom .undefined ∧
    (Webot.new.wait sampleModule "__proto__" (.atom (.str "confirm"))).dataGet "u1" "waiter" =
      .rules (.one (rule (.str "confirm") .undefined)) := by
  decide

/-- C20, amended: for two distinct user ids `u` and `v`, where `u` names no
member inherited from `Object.prototype`, what `data`, `wait` and `rewait` do
for `u`, and what `reply` does to the store for an envelope of `u` before the
scan, leaves the bag of `v` and everything read from it as they were; within the
bag of `u`, `data` with a key `k` that names no inherited member changes no other
key; and `rewait` for a user without `last_waited`, own or stored for the user
id `__proto__`, arms no waiter and creates no `rewait_count`: it changes no
key. -/
theorem users_isolated (m : RuleModule) (self : Webot) (u v : String) (h : u ≠ v)
    (hu : inherited u = none) :
    (∀ (k : String) (value : Val),
      (self.data u k value).1._data_cache v = self._data_cache v ∧
      ∀ k2 : String, (self.data u k value).1.dataGet v k2 = self.dataGet v k2) ∧
    (∀ rule : Val,
      (self.wait m u rule)._data_cache v = self._data_cache v ∧
      ∀ k2 : String, (self.wait m u rule).dataGet v k2 = self.dataGet v k2) ∧
    ((self.rewait m u)._data_cache v = self._data_cache v ∧
      ∀ k2 : String, (self.rewait m u).dataGet v k2 = self.dataGet v k2) ∧
    (∀ info : Info, info.user = u →
      (setupBot (self.replySetup info))._data_cache v = self._data_cache v ∧
      ∀ k2 : String, (setupBot (self.replySetup info)).dataGet v k2 = self.dataGet v k2) ∧
    (∀ (k k2 : String) (value : Val), inherited k = none → k2 ≠ k →
      (self.data u k value).1.bagOf u k2 = self.bagOf u k2) ∧
    (((self.bagOf u "last_waited").getD (.atom .undefined)).truthy = false →
      self.bagOf "__proto__" "last_waited" = none →
      ∀ k : String, (self.rewait m u).bagOf u k = self.bagOf u k) := by
  have hv : v ≠ u := fun e => h e.symm
  have hp : "__proto__" ≠ u := proto_ne u hu
  refine ⟨fun k value => ?_, fun rule => ?_, ?_, ?_, ?_, ?_⟩
  · exact ⟨data_cache_other self u k v value hv,
      dataGet_of_cache _ _ v (data_cache_other self u k v value hv)
        (data_cache_other self u k "__proto__" value hp)⟩
  · exact ⟨wait_cache_other m self u v rule hv,
      dataGet_of_cache _ _ v (wait_cache_other m self u v rule hv)
        (wait_cache_other m self u "__proto__" rule hp)⟩
  · exact ⟨rewait_cache_other m self u v hv,
      dataGet_of_cache _ _ v (rewait_cache_other m self u v hv)
        (rewait_cache_other m self u "__proto__" hp)⟩
  · intro info hi
    subst hi
    exact ⟨setup_cache_other self info v hv,
      dataGet_of_cache _ _ v (setup_cache_other self info v hv)
        (setup_cache_other self info "__proto__" hp)⟩
  · intro k k2 value _ hk
    exact (data_sets_key_aux self u k value k2 hk)
  · intro hl _ k
    have hr : self.rewait m u = (self.data u "last_waited" (.atom .undefined)).1 := by
      simp only [Webot.rewait, Webot._last_waited, ne_eq, not_true_eq_false, if_false,
        Option.getD_some, data_read_val, hl, Bool.false_eq_true]
    rw [hr, data_read_bagOf]

theorem users_isolated_witness :
    "u2" ≠ "u1" ∧ inherited "u2" = none ∧
    ((armed.rewait sampleModule "u2")._data_cache "u1") = armed._data_cache "u1" ∧
    ((setupBot (armed.replySetup (message "u2" "confirm")))._data_cache "u1") =
      armed._data_cache "u1" :=
  ⟨by decide, by decide,
    (users_isolated sampleModule armed "u2" "u1" (by decide) (by decide)).2.2.1.1,
    ((users_isolated sampleModule armed "u2" "u1" (by decide) (by decide)).2.2.2.1
      (message "u2" "confirm") rfl).1⟩

end Robot
